import Mathlib

/-!
Formal model of the marking pipeline of the examo backend
(`backend/apps/ai_marking`, `backend/apps/attempts`), together with proofs
about its grading logic, JSON extraction and repair, and the background
marking workflow.

Conventions: Python floats and Decimals are modelled as rationals, database
integer columns as `Int` (`Nat` for positive columns), timestamps as `Nat`
ticks, and fallible operations as `Option`/`Except` values.
-/

namespace Examo

/-- The six ASCII characters stripped by Python's `str.strip()`. -/
def isPySpace (c : Char) : Bool :=
  c = ' ' || c = '\t' || c = '\n' || c = '\r' || c = '\x0b' || c = '\x0c'

/-- Python `str.strip()` with the default whitespace set. -/
def pyStrip (s : String) : String :=
  String.mk (((s.data.dropWhile isPySpace).reverse.dropWhile isPySpace).reverse)

/-- Python slice `s[:n]`. -/
def strTake (s : String) (n : Nat) : String := String.mk (s.data.take n)

/-- Python `str.find(c)`: index of the first occurrence of `c`, `-1` if absent. -/
def pyFindChar (cs : List Char) (c : Char) : Int :=
  match cs.findIdx? (· = c) with
  | some i => (i : Int)
  | none => -1

/-- Helper for `pyRfindChar`/`pyRfindSub2`: best (last) index seen so far. -/
def pyRfindCharGo (c : Char) : List Char → Nat → Int → Int
  | [], _, best => best
  | c1 :: rest, i, best => pyRfindCharGo c rest (i + 1) (if c1 = c then (i : Int) else best)

/-- Python `str.rfind(c)`: index of the last occurrence of `c`, `-1` if absent. -/
def pyRfindChar (cs : List Char) (c : Char) : Int := pyRfindCharGo c cs 0 (-1)

/-- Helper scanning for the last occurrence of a two-character substring. -/
def pyRfindSub2Go (a b : Char) : List Char → Nat → Int → Int
  | c1 :: c2 :: rest, i, best =>
      pyRfindSub2Go a b (c2 :: rest) (i + 1) (if c1 = a && c2 = b then (i : Int) else best)
  | _, _, best => best

/-- Python `str.rfind(ab)` for a two-character pattern, `-1` if absent. -/
def pyRfindSub2 (cs : List Char) (a b : Char) : Int := pyRfindSub2Go a b cs 0 (-1)

/-! ### JSON values and a parser modelling Python's `json.loads`

`json.loads` distinguishes ints from floats, accepts only strict JSON
(double-quoted strings, no trailing commas, no leading zeros), rejects
trailing data, and lets the last duplicate key win.  `NaN`/`Infinity`
literals are not modelled. -/

inductive Json where
  | null
  | bool (b : Bool)
  | int (n : Int)
  | float (q : ℚ)
  | str (s : String)
  | arr (elems : List Json)
  | obj (members : List (String × Json))


/-- JSON insignificant whitespace (RFC 8259: space, tab, newline, return). -/
def skipWs : List Char → List Char
  | c :: r => if c = ' ' || c = '\t' || c = '\n' || c = '\r' then skipWs r else c :: r
  | [] => []

def hexVal (c : Char) : Option Nat :=
  if '0' ≤ c ∧ c ≤ '9' then some (c.toNat - 48)
  else if 'a' ≤ c ∧ c ≤ 'f' then some (c.toNat - 87)
  else if 'A' ≤ c ∧ c ≤ 'F' then some (c.toNat - 55)
  else none

/-- Body of a JSON string after the opening quote; returns content and rest. -/
def jsonStringRest (acc : List Char) : List Char → Option (String × List Char)
  | [] => none
  | '"' :: rest => some (String.mk acc.reverse, rest)
  | '\\' :: e :: rest =>
    match e with
    | '"' => jsonStringRest ('"' :: acc) rest
    | '\\' => jsonStringRest ('\\' :: acc) rest
    | '/' => jsonStringRest ('/' :: acc) rest
    | 'b' => jsonStringRest ('\x08' :: acc) rest
    | 'f' => jsonStringRest ('\x0c' :: acc) rest
    | 'n' => jsonStringRest ('\n' :: acc) rest
    | 'r' => jsonStringRest ('\r' :: acc) rest
    | 't' => jsonStringRest ('\t' :: acc) rest
    | 'u' =>
      match rest with
      | h1 :: h2 :: h3 :: h4 :: r2 =>
        match hexVal h1, hexVal h2, hexVal h3, hexVal h4 with
        | some a, some b, some c, some d =>
            jsonStringRest (Char.ofNat (((a * 16 + b) * 16 + c) * 16 + d) :: acc) r2
        | _, _, _, _ => none
      | _ => none
    | _ => none
  | c :: rest => if c.toNat < 32 then none else jsonStringRest (c :: acc) rest

def digitsToNat (ds : List Char) : Nat :=
  ds.foldl (fun n c => n * 10 + (c.toNat - 48)) 0

/-- Parse a JSON number at the head of the input (strict JSON grammar). -/
def parseNumber (cs : List Char) : Option (Json × List Char) :=
  let (neg, c1) := match cs with
    | '-' :: r => (true, r)
    | _ => (false, cs)
  let ip := c1.takeWhile Char.isDigit
  let c2 := c1.dropWhile Char.isDigit
  if ip = [] then none
  else if 1 < ip.length ∧ ip.headD '1' = '0' then none
  else
    let (hasFrac, fp, c3) := match c2 with
      | '.' :: r => (true, r.takeWhile Char.isDigit, r.dropWhile Char.isDigit)
      | _ => (false, [], c2)
    if hasFrac ∧ fp = [] then none
    else
      let (hasExp, eneg, ed, c4) := match c3 with
        | 'e' :: '-' :: r => (true, true, r.takeWhile Char.isDigit, r.dropWhile Char.isDigit)
        | 'e' :: '+' :: r => (true, false, r.takeWhile Char.isDigit, r.dropWhile Char.isDigit)
        | 'e' :: r => (true, false, r.takeWhile Char.isDigit, r.dropWhile Char.isDigit)
        | 'E' :: '-' :: r => (true, true, r.takeWhile Char.isDigit, r.dropWhile Char.isDigit)
        | 'E' :: '+' :: r => (true, false, r.takeWhile Char.isDigit, r.dropWhile Char.isDigit)
        | 'E' :: r => (true, false, r.takeWhile Char.isDigit, r.dropWhile Char.isDigit)
        | _ => (false, false, [], c3)
      if hasExp ∧ ed = [] then none
      else
        let sign : Int := if neg then -1 else 1
        if ¬hasFrac ∧ ¬hasExp then
          some (Json.int (sign * (digitsToNat ip : Int)), c2)
        else
          let mant : Int := sign * ((digitsToNat ip * 10 ^ fp.length + digitsToNat fp : Nat) : Int)
          let q : ℚ :=
            if eneg then (mant : ℚ) / ((10 ^ (fp.length + digitsToNat ed) : Nat) : ℚ)
            else ((mant * ((10 ^ digitsToNat ed : Nat) : Int) : Int) : ℚ) / ((10 ^ fp.length : Nat) : ℚ)
          some (Json.float q, c4)

/-- The three mutually recursive parsing tasks: a value, the remaining
elements of an array, or the remaining members of an object. -/
inductive ParseTask where
  | val (cs : List Char)
  | items (cs : List Char) (acc : List Json)
  | mems (cs : List Char) (acc : List (String × Json))

/-- Fuel-indexed JSON parser (single function so that it reduces by `rfl`). -/
def parseJ : Nat → ParseTask → Option (Json × List Char)
  | 0, _ => none
  | fuel + 1, ParseTask.val cs =>
    (match skipWs cs with
     | 'n' :: 'u' :: 'l' :: 'l' :: r => some (Json.null, r)
     | 't' :: 'r' :: 'u' :: 'e' :: r => some (Json.bool true, r)
     | 'f' :: 'a' :: 'l' :: 's' :: 'e' :: r => some (Json.bool false, r)
     | '"' :: r => (jsonStringRest [] r).map (fun p => (Json.str p.1, p.2))
     | '[' :: r =>
       (match skipWs r with
        | ']' :: r2 => some (Json.arr [], r2)
        | r2 => parseJ fuel (ParseTask.items r2 []))
     | '\x7b' :: r =>
       (match skipWs r with
        | '\x7d' :: r2 => some (Json.obj [], r2)
        | r2 => parseJ fuel (ParseTask.mems r2 []))
     | r => parseNumber r)
  | fuel + 1, ParseTask.items cs acc =>
    (match parseJ fuel (ParseTask.val cs) with
     | none => none
     | some (v, r) =>
       match skipWs r with
       | ',' :: r2 => parseJ fuel (ParseTask.items r2 (acc ++ [v]))
       | ']' :: r2 => some (Json.arr (acc ++ [v]), r2)
       | _ => none)
  | fuel + 1, ParseTask.mems cs acc =>
    (match skipWs cs with
     | '"' :: r =>
       (match jsonStringRest [] r with
        | none => none
        | some (k, r2) =>
          match skipWs r2 with
          | ':' :: r3 =>
            (match parseJ fuel (ParseTask.val r3) with
             | none => none
             | some (v, r4) =>
               match skipWs r4 with
               | ',' :: r5 => parseJ fuel (ParseTask.mems r5 (acc ++ [(k, v)]))
               | '\x7d' :: r5 => some (Json.obj (acc ++ [(k, v)]), r5)
               | _ => none)
          | _ => none)
     | _ => none)

/-- Model of Python `json.loads`: parse a full document, rejecting trailing data. -/
def jsonLoads (s : String) : Option Json :=
  match parseJ (2 * s.length + 4) (ParseTask.val s.data) with
  | some (v, rest) => if skipWs rest = [] then some v else none
  | none => none

/-!  ### The JSON location-and-repair step of question extraction

Embeds the response-postprocessing shared verbatim by
`PaperProcessingService._extract_questions_with_vision` (lines 398-433) and
`PaperProcessingService._extract_questions_with_ai` (lines 552-580) of
`src/backend/apps/ai_marking/paper_processing.py`: locate `[` ... `]`,
try `json.loads`, then repair by truncating at the last complete object. -/

def extract_questions_json (response_text : String) : Option Json :=
  let cs := response_text.data
  let start := pyFindChar cs '['
  let stop := pyRfindChar cs ']' + 1
  if start ≠ -1 ∧ start < stop then
    let jsonStr := (cs.drop start.toNat).take (stop - start).toNat
    match jsonLoads (String.mk jsonStr) with
    | some v => some v
    | none =>
      let lastComplete := pyRfindSub2 jsonStr '\x7d' ','
      let firstRepair :=
        if 0 < lastComplete then
          jsonLoads (String.mk (jsonStr.take (lastComplete.toNat + 1) ++ [']']))
        else none
      match firstRepair with
      | some v => some v
      | none =>
        let lastBrace := pyRfindChar jsonStr '\x7d'
        if 0 < lastBrace then
          jsonLoads (String.mk (jsonStr.take (lastBrace.toNat + 1) ++ [']']))
        else none
  else none

/-! ### Python value dynamics

Helpers giving decoded JSON values the runtime behaviour their Python
counterparts have inside `AIMarkingService` (truthiness, `dict.get`,
iteration, `float(...)`, comparisons against a float, `str(...)`).
Exceptions are typed: `ValueError`/`KeyError`/`json.JSONDecodeError` are the
ones `_parse_marking_response` catches; `TypeError`/`AttributeError`
propagate to `mark_answer`'s catch-all. -/

inductive PyErr where
  | jsonDecode
  | valueErr
  | typeErr
  | attrErr
  | keyErr
deriving DecidableEq

/-- Errors caught by the `except` clause of `_parse_marking_response`. -/
def parseCaught (e : PyErr) : Bool :=
  e = PyErr.jsonDecode || e = PyErr.valueErr || e = PyErr.keyErr

/-- Python truthiness of a decoded JSON value. -/
def pyTruthy : Json → Bool
  | Json.null => false
  | Json.bool b => b
  | Json.int n => n ≠ 0
  | Json.float q => q ≠ 0
  | Json.str s => s ≠ ""
  | Json.arr l => !l.isEmpty
  | Json.obj m => !m.isEmpty

/-- `dict.get(k, d)` on a decoded JSON object; the last duplicate key wins. -/
def pyDictGet (m : List (String × Json)) (k : String) (d : Json) : Json :=
  match m.reverse.find? (fun p => p.1 = k) with
  | some p => p.2
  | none => d

/-- `v.get(k, d)`: `AttributeError` unless `v` is a dict. -/
def pyObjGet (v : Json) (k : String) (d : Json) : Except PyErr Json :=
  match v with
  | Json.obj m => Except.ok (pyDictGet m k d)
  | _ => Except.error PyErr.attrErr

/-- `for x in v`: lists iterate elements, strings their characters, dicts
their keys; other values raise `TypeError`. -/
def pyIter : Json → Except PyErr (List Json)
  | Json.arr l => Except.ok l
  | Json.str s => Except.ok (s.data.map (fun c => Json.str (String.mk [c])))
  | Json.obj m => Except.ok (m.map (fun p => Json.str p.1))
  | _ => Except.error PyErr.typeErr

/-- `float(s)` for a string: sign, digits, optional point and exponent
(`inf`/`nan` literals and underscore separators are not modelled). -/
def pyFloatOfString (s : String) : Option ℚ :=
  let cs := s.data.dropWhile isPySpace
  let cs := (cs.reverse.dropWhile isPySpace).reverse
  let (neg, c1) := match cs with
    | '-' :: r => (true, r)
    | '+' :: r => (false, r)
    | _ => (false, cs)
  let ip := c1.takeWhile Char.isDigit
  let c2 := c1.dropWhile Char.isDigit
  let (hasFrac, fp, c3) := match c2 with
    | '.' :: r => (true, r.takeWhile Char.isDigit, r.dropWhile Char.isDigit)
    | _ => (false, [], c2)
  if ip = [] ∧ fp = [] then none
  else
    let (hasExp, eneg, ed, c4) := match c3 with
      | 'e' :: '-' :: r => (true, true, r.takeWhile Char.isDigit, r.dropWhile Char.isDigit)
      | 'e' :: '+' :: r => (true, false, r.takeWhile Char.isDigit, r.dropWhile Char.isDigit)
      | 'e' :: r => (true, false, r.takeWhile Char.isDigit, r.dropWhile Char.isDigit)
      | 'E' :: '-' :: r => (true, true, r.takeWhile Char.isDigit, r.dropWhile Char.isDigit)
      | 'E' :: '+' :: r => (true, false, r.takeWhile Char.isDigit, r.dropWhile Char.isDigit)
      | 'E' :: r => (true, false, r.takeWhile Char.isDigit, r.dropWhile Char.isDigit)
      | _ => (false, false, [], c3)
    if hasExp ∧ ed = [] then none
    else if c4 ≠ [] then none
    else
      let _ := hasFrac
      let sign : Int := if neg then -1 else 1
      let mant : Int := sign * ((digitsToNat ip * 10 ^ fp.length + digitsToNat fp : Nat) : Int)
      some (if eneg then (mant : ℚ) / ((10 ^ (fp.length + digitsToNat ed) : Nat) : ℚ)
            else ((mant * ((10 ^ digitsToNat ed : Nat) : Int) : Int) : ℚ) / ((10 ^ fp.length : Nat) : ℚ))

/-- `float(v)`: numbers and bools convert, numeric strings parse
(`ValueError` otherwise), and any other type raises `TypeError`. -/
def pyFloat : Json → Except PyErr ℚ
  | Json.int n => Except.ok (n : ℚ)
  | Json.float q => Except.ok q
  | Json.bool b => Except.ok (if b then 1 else 0)
  | Json.str s =>
    (match pyFloatOfString s with
     | some q => Except.ok q
     | none => Except.error PyErr.valueErr)
  | _ => Except.error PyErr.typeErr

/-- `v > c` against a float: `TypeError` unless `v` is numeric or bool. -/
def pyGtQ (v : Json) (c : ℚ) : Except PyErr Bool :=
  match v with
  | Json.int n => Except.ok (decide ((n : ℚ) > c))
  | Json.float q => Except.ok (decide (q > c))
  | Json.bool b => Except.ok (decide ((if b then (1 : ℚ) else 0) > c))
  | _ => Except.error PyErr.typeErr

/-- `v >= c` against a float. -/
def pyGeQ (v : Json) (c : ℚ) : Except PyErr Bool :=
  match v with
  | Json.int n => Except.ok (decide ((n : ℚ) ≥ c))
  | Json.float q => Except.ok (decide (q ≥ c))
  | Json.bool b => Except.ok (decide ((if b then (1 : ℚ) else 0) ≥ c))
  | _ => Except.error PyErr.typeErr

/-- Numeric value of a JSON number or bool (only applied after a successful
comparison has established the value is numeric). -/
def jsonNumVal : Json → ℚ
  | Json.int n => (n : ℚ)
  | Json.float q => q
  | Json.bool b => if b then 1 else 0
  | _ => 0

/-- Decimal rendering of a rational whose denominator divides a power of ten
(every float produced by the decoded JSON does), used for `str(float)` /
`str(Decimal)` in message text; other denominators fall back to `num/den`. -/
def floatRepr (q : ℚ) : String :=
  match (List.range 40).find? (fun k => (q * ((10 ^ k : Nat) : ℚ)).den = 1) with
  | none => toString q.num ++ "/" ++ toString q.den
  | some k =>
    let n : Int := (q * ((10 ^ k : Nat) : ℚ)).num
    let sign := if n < 0 then "-" else ""
    let a := n.natAbs
    if k = 0 then sign ++ toString a ++ ".0"
    else
      let ip := a / 10 ^ k
      let fracDigits := toString (10 ^ k + a % 10 ^ k)   -- "1" then k zero-padded digits
      let frac := String.mk ((fracDigits.data.drop 1).reverse.dropWhile (· = '0')).reverse
      sign ++ toString ip ++ "." ++ (if frac = "" then "0" else frac)

mutual

/-- Python `repr` of a decoded JSON value. -/
def pyReprJ : Json → String
  | Json.null => "None"
  | Json.bool true => "True"
  | Json.bool false => "False"
  | Json.int n => toString n
  | Json.float q => floatRepr q
  | Json.str s => "\x27" ++ s ++ "\x27"
  | Json.arr l => "[" ++ String.intercalate ", " (pyReprList l) ++ "]"
  | Json.obj m => "\x7b" ++ String.intercalate ", " (pyReprMems m) ++ "\x7d"

def pyReprList : List Json → List String
  | [] => []
  | v :: r => pyReprJ v :: pyReprList r

def pyReprMems : List (String × Json) → List String
  | [] => []
  | (k, v) :: r => ("\x27" ++ k ++ "\x27: " ++ pyReprJ v) :: pyReprMems r

end

/-- Python `str` of a decoded JSON value (as interpolated by f-strings). -/
def pyStrJ : Json → String
  | Json.str s => s
  | v => pyReprJ v

/-- `'\n'.join(parts)`: `TypeError` unless every part is a string. -/
def pyJoinLines (parts : List Json) : Except PyErr String :=
  (parts.mapM (fun j =>
    match j with
    | Json.str s => Except.ok s
    | _ => Except.error PyErr.typeErr)).map (String.intercalate "\n")

/-! ### The data model of grading

`Question` from `src/backend/apps/exams/models.py` (the fields grading
reads) and `Answer` from `src/backend/apps/attempts/models.py`, with the
answer's question denormalised into the record (the code always reaches it
as `answer.question`). -/

structure Question where
  question_number : String
  question_text : String
  question_type : String
  marks : Int
  correct_answer : String
  marking_scheme : String
  sample_answer : String
  order : Int
  topics : List Nat
deriving DecidableEq

structure Answer where
  question : Question
  answer_text : String
  selected_option : String
  is_correct : Option Bool
  score : Option ℚ
  feedback : String
  ai_marked : Bool
  marked_at : Option Nat
  confidence_score : Option ℚ
  confidence_level : String
deriving DecidableEq

/-- `Answer.mark_mcq` (src/backend/apps/attempts/models.py lines 121-134):
deterministic MCQ grading; a no-op on non-MCQ questions. -/
def mark_mcq (a : Answer) : Answer :=
  if a.question.question_type = "mcq" then
    let correct := a.selected_option = a.question.correct_answer
    { a with
      is_correct := some correct,
      score := some (if correct then (a.question.marks : ℚ) else 0),
      feedback := if correct then "Correct!"
        else "Incorrect. The correct answer is " ++ a.question.correct_answer ++ ".",
      ai_marked := false,
      confidence_score := some 1,
      confidence_level := "high" }
  else a

/-- Round to the nearest integer, ties to even (Python's `round`). -/
def roundHalfEven (x : ℚ) : ℤ :=
  let f := ⌊x⌋
  let r := x - (f : ℚ)
  if r < 1 / 2 then f
  else if 1 / 2 < r then f + 1
  else if f % 2 = 0 then f else f + 1

/-- Python `round(x, 2)`. -/
def pyRound2 (x : ℚ) : ℚ := (roundHalfEven (x * 100) : ℚ) / 100

/-- `AIMarkingService._fallback_marking`
(src/backend/apps/ai_marking/services.py lines 255-282): length-based
heuristic used whenever the AI path is unavailable or raised. -/
def fallback_marking (now : Nat) (a : Answer) : Answer :=
  let answer_text := pyStrip a.answer_text
  let max_marks : ℚ := (a.question.marks : ℚ)
  let score : ℚ :=
    if answer_text = "" then 0
    else if answer_text.length < 20 then max_marks * (1 / 4)
    else if answer_text.length < 50 then max_marks * (1 / 2)
    else max_marks * (3 / 5)
  let feedback :=
    if answer_text = "" then "No answer provided."
    else if answer_text.length < 20 then
      "Your answer is very brief. Try to provide more detail and explanation."
    else if answer_text.length < 50 then
      "Your answer shows some understanding. Consider expanding with more details."
    else "Your answer has been recorded. Detailed AI feedback is currently unavailable."
  { a with
    score := some (pyRound2 score),
    feedback := feedback,
    is_correct := some (decide (score ≥ max_marks * (1 / 2))),
    ai_marked := false,
    marked_at := some now,
    confidence_score := some (3 / 10),
    confidence_level := "low" }

/-- The dict returned by `_parse_marking_response`: `score` (a float),
`feedback` (a string), and the raw decoded `confidence` value. -/
structure MarkParse where
  score : ℚ
  feedback : String
  confidence : Json

/-- The safe default `_parse_marking_response` returns when no JSON object
is found or a caught exception fires (services.py lines 248-253). -/
def parseSafeDefault (max_marks : Int) : MarkParse :=
  { score := (max_marks : ℚ) * (1 / 2),
    feedback := "Your answer has been reviewed. Please consult your teacher for detailed feedback.",
    confidence := Json.float (1 / 2) }

/-- The body of the `try` block of `_parse_marking_response` once a brace
slice has been found (services.py lines 200-244). -/
def parseMarkingCore (jsonStr : String) (max_marks : Int) : Except PyErr MarkParse := do
  match jsonLoads jsonStr with
  | none => Except.error PyErr.jsonDecode
  | some result =>
    let scoreJ ← pyObjGet result "score" (Json.int 0)
    let scoreF ← pyFloat scoreJ
    let score := max 0 (min scoreF (max_marks : ℚ))
    let parts : List Json := [← pyObjGet result "feedback" (Json.str "")]
    let breakdown ← pyObjGet result "breakdown" (Json.arr [])
    let parts ←
      if pyTruthy breakdown then do
        let parts := parts ++ [Json.str "\n\n**Marking Breakdown:**"]
        let items ← pyIter breakdown
        items.foldlM (fun parts item => do
          let criterion ← pyObjGet item "criterion" (Json.str "")
          let awarded ← pyObjGet item "marks_awarded" (Json.int 0)
          let possible ← pyObjGet item "marks_possible" (Json.int 0)
          let comment ← pyObjGet item "comment" (Json.str "")
          let parts := parts ++
            [Json.str ("- " ++ pyStrJ criterion ++ ": " ++ pyStrJ awarded ++ "/" ++
              pyStrJ possible ++ " marks")]
          pure (if pyTruthy comment then parts ++ [Json.str ("  " ++ pyStrJ comment)] else parts))
          parts
      else pure parts
    let correct_points ← pyObjGet result "correct_points" (Json.arr [])
    let parts ←
      if pyTruthy correct_points then do
        let pts ← pyIter correct_points
        pure ((parts ++ [Json.str "\n\n**What you did well:**"]) ++
          pts.map (fun p => Json.str ("- " ++ pyStrJ p)))
      else pure parts
    let missing_points ← pyObjGet result "missing_points" (Json.arr [])
    let parts ←
      if pyTruthy missing_points then do
        let pts ← pyIter missing_points
        pure ((parts ++ [Json.str "\n\n**Points to improve:**"]) ++
          pts.map (fun p => Json.str ("- " ++ pyStrJ p)))
      else pure parts
    let suggestions ← pyObjGet result "suggestions" (Json.str "")
    let parts :=
      if pyTruthy suggestions then
        parts ++ [Json.str ("\n\n**Study tip:** " ++ pyStrJ suggestions)]
      else parts
    let feedback ← pyJoinLines parts
    let confidence ← pyObjGet result "confidence" (Json.float (4 / 5))
    pure { score := score, feedback := feedback, confidence := confidence }

/-- `AIMarkingService._parse_marking_response`
(src/backend/apps/ai_marking/services.py lines 192-253): slice from the
first brace to the last, `json.loads` it, build the composite feedback;
`JSONDecodeError`/`ValueError`/`KeyError` (and a missing brace slice) give
the safe default, other exceptions propagate. -/
def parse_marking_response (response_text : String) (max_marks : Int) :
    Except PyErr MarkParse :=
  let cs := response_text.data
  let start := pyFindChar cs '\x7b'
  let stop := pyRfindChar cs '\x7d' + 1
  if start ≠ -1 ∧ start < stop then
    let jsonStr := String.mk ((cs.drop start.toNat).take (stop - start).toNat)
    match parseMarkingCore jsonStr max_marks with
    | Except.ok r => Except.ok r
    | Except.error e =>
      if parseCaught e then Except.ok (parseSafeDefault max_marks) else Except.error e
  else Except.ok (parseSafeDefault max_marks)

/-- Outcome of one call to the external AI service, as seen by
`mark_answer`: no client configured, the call raised, or it returned text. -/
inductive AIOutcome where
  | unavailable
  | raises
  | replies (text : String)

/-- The tail of `mark_answer`'s `try` block once the response has parsed
(services.py lines 84-100): persist score/feedback, then set confidence
with the no-marking-scheme cap at 0.79; a `TypeError` in any of the
confidence comparisons falls through to the fallback heuristic, as the
surrounding `except` clause does. -/
def apply_parse_result (now : Nat) (a : Answer) (result : MarkParse) : Answer :=
  let question := a.question
  let a1 := { a with
    score := some result.score,
    feedback := result.feedback,
    is_correct := some (decide (result.score ≥ (question.marks : ℚ) * (1 / 2))),
    ai_marked := true,
    marked_at := some now }
  let capped : Except PyErr Json :=
    if question.marking_scheme = "" then
      (pyGtQ result.confidence (79 / 100)).map
        (fun gt => if gt then Json.float (79 / 100) else result.confidence)
    else Except.ok result.confidence
  match capped with
  | Except.error _ => fallback_marking now a
  | Except.ok raw =>
    match pyGeQ raw (4 / 5) with
    | Except.error _ => fallback_marking now a
    | Except.ok hi =>
      if hi then
        { a1 with confidence_score := some (jsonNumVal raw), confidence_level := "high" }
      else
        match pyGeQ raw (1 / 2) with
        | Except.error _ => fallback_marking now a
        | Except.ok med =>
          { a1 with
            confidence_score := some (jsonNumVal raw),
            confidence_level := if med then "medium" else "low" }

/-- `AIMarkingService.mark_answer`
(src/backend/apps/ai_marking/services.py lines 33-118): empty answers
short-circuit; without a client or on any exception the fallback heuristic
runs; otherwise the parsed response is persisted with the
no-marking-scheme confidence cap at 0.79. -/
def mark_answer (now : Nat) (ai : AIOutcome) (a : Answer) : Answer :=
  let question := a.question
  if pyStrip a.answer_text = "" then
    { a with
      score := some 0,
      feedback := "No answer provided.",
      is_correct := some false,
      ai_marked := true,
      marked_at := some now,
      confidence_score := some 1,
      confidence_level := "high" }
  else
    match ai with
    | AIOutcome.unavailable => fallback_marking now a
    | AIOutcome.raises => fallback_marking now a
    | AIOutcome.replies response_text =>
      match parse_marking_response response_text question.marks with
      | Except.error _ => fallback_marking now a
      | Except.ok result => apply_parse_result now a result

/-! ### Database rows touched by the marking workflow -/

/-- `Attempt` (src/backend/apps/attempts/models.py lines 11-67), the fields
the marking pipeline reads and writes. -/
structure Attempt where
  status : String
  submitted_at : Option Nat
  marked_at : Option Nat
  total_score : Option ℚ
  percentage : Option ℚ
  time_spent_seconds : Int
deriving DecidableEq

/-- Modelled from the spec: the `MarkingProgress` model is referenced by
`marking_runner.py`, `admin.py` and `urls.py` of `apps/attempts` but its
class is not among the sources under `src/`; fields follow spec §3
("status ∈ pending/marking/calculating/completed/failed; counters;
current-question pointer; ordered timestamped `(kind, text)` messages;
notification/email flags; `last_polled_at`"). -/
structure MarkingProgress where
  status : String
  questions_marked : Nat
  total_questions : Nat
  current_question_number : String
  current_question_text : String
  messages : List (String × String × Nat)
  error_message : String
  notification_sent : Bool
  email_sent : Bool
  last_polled_at : Option Nat
  started_at : Option Nat
  completed_at : Option Nat

/-- `CustomUser` streak/notification fields
(src/backend/apps/users/models.py lines 34-47). -/
structure User where
  email_notifications : Bool
  current_streak_days : Nat
  longest_streak_days : Nat
  last_activity_at : Option Nat

/-- `StudySession` (src/backend/apps/progress/models.py); dates are day
numbers so that "yesterday" is `today - 1`. -/
structure StudySession where
  date : Nat
  time_spent_seconds : Int
  questions_attempted : Nat
  questions_correct : Nat
  marks_earned : ℚ
  marks_possible : ℚ
  streak_maintained : Bool

/-- `TopicProgress` (src/backend/apps/progress/models.py lines 11-75). -/
structure TopicProgress where
  topic_id : Nat
  questions_attempted : Nat
  questions_correct : Nat
  total_marks_earned : ℚ
  total_marks_possible : ℚ
  mastery_score : ℚ
  mastery_level : String
  last_practiced_at : Option Nat

/-- A row of `Notification` as created by the marking runner. -/
structure Notification where
  ntype : String
  title : String
  message : String
  link : String

/-- `TopicProgress.update_mastery`
(src/backend/apps/progress/models.py lines 56-75), pure part. -/
def update_mastery (tp : TopicProgress) : TopicProgress :=
  if tp.total_marks_possible = 0 then
    { tp with mastery_score := 0, mastery_level := "not_started" }
  else
    let s := tp.total_marks_earned / tp.total_marks_possible * 100
    { tp with
      mastery_score := s,
      mastery_level :=
        if 90 ≤ s then "mastered"
        else if 75 ≤ s then "proficient"
        else if 50 ≤ s then "developing"
        else if 0 < s then "beginner"
        else "not_started" }

/-- The streak counter update of `_sync_progress_tables`
(src/backend/apps/attempts/marking_runner.py lines 286-292): bump or reset
`current_streak_days`, track `longest_streak_days` as a running maximum. -/
def streak_update (studied_yesterday : Bool) (u : User) : User :=
  let current := if studied_yesterday then u.current_streak_days + 1 else 1
  { u with
    current_streak_days := current,
    longest_streak_days := max u.longest_streak_days current }

/-- `Attempt.calculate_score` core
(src/backend/apps/attempts/models.py lines 59-67): `none` when no answer
has a score (in which case nothing is saved); otherwise the total and, when
the paper's maximum is positive, the percentage. -/
def calc_score_core (answers : List Answer) : Option (ℚ × Option ℚ) :=
  let scored := answers.filterMap (fun a => a.score)
  if scored.isEmpty then none
  else
    let total := scored.sum
    let max_score := (answers.map (fun a => ((a.question.marks : Int) : ℚ))).sum
    some (total, if 0 < max_score then some (total / max_score * 100) else none)

/-- Apply `calculate_score` to the in-memory attempt. -/
def calculate_score (att : Attempt) (answers : List Answer) : Attempt :=
  match calc_score_core answers with
  | none => att
  | some (tot, pctO) =>
    { att with
      total_score := some tot,
      percentage := match pctO with | some p => some p | none => att.percentage }

/-- A question/answer with every field empty (for out-of-range lookups that
cannot occur on the executed paths). -/
def emptyQuestion : Question :=
  { question_number := "", question_text := "", question_type := "",
    marks := 0, correct_answer := "", marking_scheme := "",
    sample_answer := "", order := 0, topics := [] }

def emptyAnswer : Answer :=
  { question := emptyQuestion, answer_text := "", selected_option := "",
    is_correct := none, score := none, feedback := "", ai_marked := false,
    marked_at := none, confidence_score := none, confidence_level := "" }

/-! ### The workflow state, fault model and monad

One `World` is the slice of the database the run for one attempt touches,
plus the oracles the run consumes: the `random` stream, the per-answer AI
outcome, and a fault assignment saying which database/network operations
raise.  `trace` is ghost instrumentation recording each persisted
`MarkingProgress.status` change. -/

/-- Which fallible operations of `_run_marking` raise.  One flag per
`close_old_connections`/query/save/create boundary of the source; the
per-item flags are indexed by answer position or topic id. -/
structure Faults where
  fetch : Bool
  beginSave : Bool
  mcqMark : Nat → Bool
  mcqSummarySave : Bool
  serviceInit : Bool
  writtenSave : Nat → Bool
  funSave : Nat → Bool
  gradeSave : Nat → Bool
  refreshAnswer : Nat → Bool
  resultSave : Nat → Bool
  flavorSave : Nat → Bool
  milestoneSave : Nat → Bool
  calcSave : Bool
  scoreSave : Bool
  syncQuery : Bool
  syncTopic : Nat → Bool
  syncSession : Bool
  syncYesterday : Bool
  syncStreakSave : Bool
  syncUserSave : Bool
  refreshProgress : Bool
  completeSave : Bool
  notifCreate : Bool
  notifSentSave : Bool
  emailQuery : Bool
  emailSendFails : Bool
  emailSentSave : Bool
  handlerFetch : Bool
  handlerSave : Bool
  handlerNotif : Bool

/-- The fault-free assignment. -/
def noFaults : Faults :=
  { fetch := false, beginSave := false, mcqMark := fun _ => false,
    mcqSummarySave := false, serviceInit := false,
    writtenSave := fun _ => false, funSave := fun _ => false,
    gradeSave := fun _ => false, refreshAnswer := fun _ => false,
    resultSave := fun _ => false, flavorSave := fun _ => false,
    milestoneSave := fun _ => false, calcSave := false, scoreSave := false,
    syncQuery := false, syncTopic := fun _ => false, syncSession := false,
    syncYesterday := false, syncStreakSave := false, syncUserSave := false,
    refreshProgress := false, completeSave := false, notifCreate := false,
    notifSentSave := false, emailQuery := false, emailSendFails := false,
    emailSentSave := false, handlerFetch := false, handlerSave := false,
    handlerNotif := false }

structure World where
  attempt : Attempt
  answers : List Answer
  progress : MarkingProgress
  user : User
  sessions : List StudySession
  topics : List TopicProgress
  notifications : List Notification
  emails : Nat
  paperTitle : String
  paperId : Nat
  attemptId : Nat
  today : Nat
  time : Nat
  coin : Nat → Bool
  coinIdx : Nat
  pick : Nat → Nat
  pickIdx : Nat
  ai : Nat → AIOutcome
  faults : Faults
  trace : List String

/-- The workflow monad: state plus an exception carrying the state at the
point the exception was raised (the handler re-reads the database). -/
def MW (α : Type) : Type := World → Except World (α × World)

instance : Monad MW where
  pure a := fun w => Except.ok (a, w)
  bind x f := fun w =>
    match x w with
    | Except.error w2 => Except.error w2
    | Except.ok (a, w2) => f a w2

/-- A fallible operation boundary: raise when its fault flag is set. -/
def mstep (b : Bool) : MW Unit := fun w =>
  if b then Except.error w else Except.ok ((), w)

def mget : MW World := fun w => Except.ok (w, w)

/-- An infallible state change (the pure tail of an operation whose fault
gate already passed). -/
def mmod (f : World → World) : MW Unit := fun w => Except.ok ((), f w)

/-- `timezone.now()` as a tick counter. -/
def mnow : MW Nat := fun w => Except.ok (w.time, { w with time := w.time + 1 })

/-- `random.random() < 0.4` draws from the coin oracle. -/
def mcoin : MW Bool := fun w =>
  Except.ok (w.coin w.coinIdx, { w with coinIdx := w.coinIdx + 1 })

/-- `random.choice(msgs)` draws from the pick oracle. -/
def mchoice (msgs : List String) : MW String := fun w =>
  Except.ok (msgs.getD (w.pick w.pickIdx % msgs.length) "",
    { w with pickIdx := w.pickIdx + 1 })

/-- `progress.add_message(kind, text)`: append a timestamped tuple to the
ordered message log (spec §3/§4.3; the model class is not under `src/`). -/
def madd_message (p : MarkingProgress) (kind text : String) : MW MarkingProgress :=
  fun w => Except.ok ({ p with messages := p.messages ++ [(kind, text, w.time)] },
    { w with time := w.time + 1 })

/-- Persist the in-memory progress row, recording a status change in the
ghost trace. -/
def mcommit_progress (p : MarkingProgress) : MW Unit := fun w =>
  Except.ok ((), { w with
    progress := p,
    trace := if p.status == w.progress.status then w.trace else w.trace ++ [p.status] })

/-- `progress.save(...)`: a fault gate followed by the persist. -/
def msave_progress (b : Bool) (p : MarkingProgress) : MW Unit := do
  mstep b
  mcommit_progress p

def personality_messages : List String :=
  ["Hmm, interesting approach...",
   "Let me check the marking scheme...",
   "This is looking good so far!",
   "Taking a closer look at this one...",
   "Comparing with the model answer...",
   "Checking for key terms...",
   "Evaluating your reasoning...",
   "Almost there, just a few more to go...",
   "Reading through your response...",
   "Let me consider partial marks here..."]

def high_score_messages : List String :=
  ["Excellent work on this one!",
   "Strong answer — well done!",
   "Great understanding shown here!",
   "You nailed this one!"]

def low_score_messages : List String :=
  ["This topic might need some revision.",
   "Don\x27t worry — focus on the key concepts next time.",
   "Review the marking scheme to see what was expected."]

/-- The MCQ pass (marking_runner.py lines 76-83): grade each MCQ answer
deterministically, count the correct ones, bump `questions_marked`. -/
def mark_mcq_loop : List Nat → MarkingProgress → Nat → MW (MarkingProgress × Nat)
  | [], progress, correct => pure (progress, correct)
  | i :: rest, progress, correct => do
    let w ← mget
    let a := w.answers.getD i emptyAnswer
    mstep (w.faults.mcqMark i)
    let a2 := mark_mcq a
    mmod (fun w2 => { w2 with answers := w2.answers.set i a2 })
    let correct := if a2.is_correct = some true then correct + 1 else correct
    let progress := { progress with questions_marked := progress.questions_marked + 1 }
    mark_mcq_loop rest progress correct

/-- The 40%-chance personality message of the written pass
(marking_runner.py lines 121-123). -/
def fun_message_step (c : Bool) (fl : Bool) (progress : MarkingProgress) :
    MW MarkingProgress :=
  if c then do
    let msg ← mchoice personality_messages
    let progress ← madd_message progress "fun" msg
    msave_progress fl progress
    pure progress
  else pure progress

/-- The high/low score flavor message (marking_runner.py lines 147-154). -/
def flavor_step (fl : Bool) (score : ℚ) (max_marks : Int)
    (progress : MarkingProgress) : MW MarkingProgress :=
  if 0 < max_marks then
    let pct : ℚ := score / ((max_marks : Int) : ℚ)
    if 4 / 5 ≤ pct then do
      let msg ← mchoice high_score_messages
      let progress ← madd_message progress "fun" msg
      msave_progress fl progress
      pure progress
    else if pct < 2 / 5 then do
      let msg ← mchoice low_score_messages
      let progress ← madd_message progress "fun" msg
      msave_progress fl progress
      pure progress
    else pure progress
  else pure progress

/-- The halfway / one-more-to-go milestone messages
(marking_runner.py lines 156-162). -/
def milestone_step (fl : Bool) (idx total halfway : Nat)
    (progress : MarkingProgress) : MW MarkingProgress :=
  if 2 < total ∧ idx + 1 = halfway then do
    let progress ← madd_message progress "info"
      ("Halfway there — " ++ toString (idx + 1) ++ "/" ++ toString total ++
        " written questions done!")
    msave_progress fl progress
    pure progress
  else if 3 < total ∧ idx + 1 = total - 1 then do
    let progress ← madd_message progress "info" "Just one more to go!"
    msave_progress fl progress
    pure progress
  else pure progress

/-- The written-answer pass (marking_runner.py lines 105-162). -/
def mark_written_loop : List Nat → Nat → Nat → Nat → MarkingProgress → MW MarkingProgress
  | [], _, _, _, progress => pure progress
  | i :: rest, idx, total, halfway, progress => do
    let w ← mget
    let a := w.answers.getD i emptyAnswer
    let q := a.question
    let q_label := "Q" ++ q.question_number
    let preview := strTake q.question_text 80 ++
      (if 80 < q.question_text.length then "..." else "")
    let progress := { progress with
      current_question_number := q.question_number,
      current_question_text := strTake preview 200 }
    let progress ← madd_message progress "progress" ("Marking " ++ q_label ++ ": " ++ preview)
    msave_progress (w.faults.writtenSave i) progress
    let c ← mcoin
    let progress ← fun_message_step c (w.faults.funSave i) progress
    mstep (w.faults.gradeSave i)
    let t ← mnow
    let w2 ← mget
    let a2 := mark_answer t (w2.ai i) (w2.answers.getD i emptyAnswer)
    mmod (fun w3 => { w3 with answers := w3.answers.set i a2 })
    mstep (w.faults.refreshAnswer i)
    let w4 ← mget
    let a3 := w4.answers.getD i emptyAnswer
    let score := a3.score.getD 0
    let max_marks := q.marks
    let fsnip := strTake a3.feedback 80 ++ (if 80 < a3.feedback.length then "..." else "")
    let progress := { progress with questions_marked := progress.questions_marked + 1 }
    let progress ← madd_message progress "result"
      (q_label ++ ": " ++ floatRepr score ++ "/" ++ toString max_marks ++ " — " ++ fsnip)
    msave_progress (w.faults.resultSave i) progress
    let progress ← flavor_step (w.faults.flavorSave i) score max_marks progress
    let progress ← milestone_step (w.faults.milestoneSave i) idx total halfway progress
    mark_written_loop rest (idx + 1) total halfway progress

/-- Per-topic accumulator of `_sync_progress_tables`. -/
structure TStats where
  attempted : Nat
  correct : Nat
  earned : ℚ
  possible : ℚ

/-- Upsert one answer/topic pair into the insertion-ordered stats dict. -/
def topic_stats_add (stats : List (Nat × TStats)) (tid : Nat) (isc : Bool)
    (sc mk : ℚ) : List (Nat × TStats) :=
  if stats.any (fun p => p.1 == tid) then
    stats.map (fun p =>
      if p.1 == tid then
        (p.1, { attempted := p.2.attempted + 1,
                correct := p.2.correct + (if isc then 1 else 0),
                earned := p.2.earned + sc,
                possible := p.2.possible + mk })
      else p)
  else
    stats ++ [(tid, { attempted := 1, correct := if isc then 1 else 0,
                      earned := sc, possible := mk })]

/-- The `topic_stats` dict built in marking_runner.py lines 231-242. -/
def compute_topic_stats (answers : List Answer) : List (Nat × TStats) :=
  answers.foldl (fun stats a =>
    a.question.topics.foldl (fun stats tid =>
      topic_stats_add stats tid (a.is_correct = some true) (a.score.getD 0)
        ((a.question.marks : Int) : ℚ)) stats) []

/-- `TopicProgress` upsert loop (marking_runner.py lines 245-254). -/
def sync_topic_loop : List (Nat × TStats) → MW Unit
  | [] => pure ()
  | (tid, st) :: rest => do
    let w ← mget
    mstep (w.faults.syncTopic tid)
    let t ← mnow
    mmod (fun w2 =>
      let tp := match w2.topics.find? (fun p => p.topic_id == tid) with
        | some tp => tp
        | none =>
          { topic_id := tid, questions_attempted := 0, questions_correct := 0,
            total_marks_earned := 0, total_marks_possible := 0,
            mastery_score := 0, mastery_level := "not_started",
            last_practiced_at := none }
      let tp := { tp with
        questions_attempted := tp.questions_attempted + st.attempted,
        questions_correct := tp.questions_correct + st.correct,
        total_marks_earned := tp.total_marks_earned + st.earned,
        total_marks_possible := tp.total_marks_possible + st.possible,
        last_practiced_at := some t }
      { w2 with topics :=
          (w2.topics.filter (fun p => !(p.topic_id == tid))) ++ [update_mastery tp] })
    sync_topic_loop rest

/-- `_sync_progress_tables` (marking_runner.py lines 222-294). -/
def sync_progress_tables (attempt : Attempt) : MW Unit := do
  let w ← mget
  mstep w.faults.syncQuery
  let w1 ← mget
  let all_answers := w1.answers
  sync_topic_loop (compute_topic_stats all_answers)
  let w2 ← mget
  mstep w2.faults.syncSession
  let total_attempted := all_answers.length
  let total_correct := (all_answers.filter (fun a => a.is_correct = some true)).length
  let total_earned := (all_answers.map (fun a => a.score.getD 0)).sum
  let total_possible := (all_answers.map (fun a => ((a.question.marks : Int) : ℚ))).sum
  mmod (fun w3 =>
    match w3.sessions.find? (fun s => s.date == w3.today) with
    | none =>
      { w3 with sessions := w3.sessions ++
          [{ date := w3.today, time_spent_seconds := attempt.time_spent_seconds,
             questions_attempted := total_attempted, questions_correct := total_correct,
             marks_earned := total_earned, marks_possible := total_possible,
             streak_maintained := false }] }
    | some s =>
      { w3 with sessions := (w3.sessions.filter (fun x => !(x.date == w3.today))) ++
          [{ s with
             time_spent_seconds := s.time_spent_seconds + attempt.time_spent_seconds,
             questions_attempted := s.questions_attempted + total_attempted,
             questions_correct := s.questions_correct + total_correct,
             marks_earned := s.marks_earned + total_earned,
             marks_possible := s.marks_possible + total_possible }] })
  let w4 ← mget
  mstep w4.faults.syncYesterday
  let w5 ← mget
  let studied_yesterday := w5.sessions.any (fun s => s.date == w5.today - 1)
  let user := streak_update studied_yesterday w5.user
  mstep w5.faults.syncStreakSave
  mmod (fun w6 => { w6 with sessions := w6.sessions.map (fun s =>
    if s.date == w6.today then { s with streak_maintained := studied_yesterday } else s) })
  let t ← mnow
  mstep w5.faults.syncUserSave
  mmod (fun w6 => { w6 with user := { user with last_activity_at := some t } })

/-- `_create_notification` (marking_runner.py lines 297-312). -/
def create_notification (attempt : Attempt) (progress : MarkingProgress) :
    MW MarkingProgress := do
  let w ← mget
  mstep w.faults.notifCreate
  let pct := attempt.percentage.getD 0
  mmod (fun w2 => { w2 with notifications := w2.notifications ++
    [{ ntype := "marking_complete",
       title := "Results ready: " ++ w2.paperTitle,
       message := "Your paper has been marked! You scored " ++
         toString (roundHalfEven pct) ++ "%.",
       link := "/papers/" ++ toString w2.paperId ++ "/results/" ++ toString w2.attemptId }] })
  let progress := { progress with notification_sent := true }
  msave_progress w.faults.notifSentSave progress
  pure progress

/-- The send tail of `_maybe_send_email` (marking_runner.py lines 329-331):
the max-score query and the `email_sent` save can raise; the send itself is
best-effort (`fail_silently` plus a swallowing `try`). -/
def email_send_body (progress : MarkingProgress) : MW Unit := do
  let w ← mget
  mstep w.faults.emailQuery
  mmod (fun w2 =>
    if w2.faults.emailSendFails then w2 else { w2 with emails := w2.emails + 1 })
  msave_progress w.faults.emailSentSave { progress with email_sent := true }

/-- `_maybe_send_email` (marking_runner.py lines 315-331): skip when email
notifications are off or the client polled within the last 15 seconds. -/
def maybe_send_email (progress : MarkingProgress) : MW Unit := do
  let w ← mget
  if !w.user.email_notifications then pure ()
  else
    match progress.last_polled_at with
    | none => email_send_body progress
    | some lp => do
      let t ← mnow
      if t - lp < 15 then pure ()
      else email_send_body progress

/-- The "Multiple choice: X/Y correct" summary message emitted when the
attempt had MCQ answers (marking_runner.py lines 84-89). -/
def mcq_summary_step (fl : Bool) (mcqIdx : List Nat) (mcq_correct : Nat)
    (progress : MarkingProgress) : MW MarkingProgress :=
  if mcqIdx.isEmpty then pure progress
  else do
    let progress ← madd_message progress "info"
      ("Multiple choice: " ++ toString mcq_correct ++ "/" ++
        toString mcqIdx.length ++ " correct")
    msave_progress fl progress
    pure progress

/-- Steps 4-7 of `_run_marking` (marking_runner.py lines 176-192): sync the
progress aggregates, flip the progress row to `completed`, create the
completion notification and conditionally email. -/
def finish_marking (attempt : Attempt) : MW Unit := do
  sync_progress_tables attempt
  let w5 ← mget
  mstep w5.faults.refreshProgress
  let w6 ← mget
  let progress := w6.progress
  let pct := attempt.percentage.getD 0
  let t3 ← mnow
  let progress := { progress with status := "completed", completed_at := some t3 }
  let progress ← madd_message progress "complete"
    ("All done! Final score: " ++ toString (roundHalfEven pct) ++ "%")
  msave_progress w6.faults.completeSave progress
  let progress ← create_notification attempt progress
  maybe_send_email progress

/-- The `try` body of `_run_marking`
(src/backend/apps/attempts/marking_runner.py lines 59-192). -/
def marking_main : MW Unit := do
  let w0 ← mget
  mstep w0.faults.fetch
  let attempt := w0.attempt
  let progress := w0.progress
  let t ← mnow
  let progress := { progress with status := "marking", started_at := some t }
  let progress ← madd_message progress "info" "Alright, let\x27s see what you\x27ve got!"
  msave_progress w0.faults.beginSave progress
  let w1 ← mget
  let mcqIdx := (List.range w1.answers.length).filter
    (fun i => (w1.answers.getD i emptyAnswer).question.question_type == "mcq")
  let pc ← mark_mcq_loop mcqIdx progress 0
  let progress ← mcq_summary_step w1.faults.mcqSummarySave mcqIdx pc.2 pc.1
  mstep w1.faults.serviceInit
  let w2 ← mget
  let writtenIdx := (List.range w2.answers.length).filter
    (fun i => !((w2.answers.getD i emptyAnswer).question.question_type == "mcq"))
  let total_written := writtenIdx.length
  let progress ← mark_written_loop writtenIdx 0 total_written (total_written / 2) progress
  let progress := { progress with
    status := "calculating",
    current_question_number := "", current_question_text := "" }
  let progress ← madd_message progress "info" "Calculating your final score..."
  let w3 ← mget
  msave_progress w3.faults.calcSave progress
  let t2 ← mnow
  mstep w3.faults.scoreSave
  let w4 ← mget
  let attempt := { attempt with status := "marked", marked_at := some t2 }
  let attempt := calculate_score attempt w4.answers
  (match calc_score_core w4.answers with
   | none => pure ()
   | some _ => mmod (fun w5 => { w5 with attempt := attempt }))
  finish_marking attempt

/-- The `except` block of `_run_marking` (marking_runner.py lines 194-217):
re-fetch the progress row, flip it to `failed` with a user-safe message,
and create a `marking_failed` notification. -/
def marking_handler : MW Unit := do
  let w ← mget
  mstep w.faults.handlerFetch
  let w1 ← mget
  let progress := { w1.progress with
    status := "failed",
    error_message := "An unexpected error occurred during marking. Please try again." }
  let progress ← madd_message progress "error" "Something went wrong. Please try submitting again."
  let t ← mnow
  let progress := { progress with completed_at := some t }
  msave_progress w.faults.handlerSave progress
  mstep w.faults.handlerNotif
  mmod (fun w2 => { w2 with notifications := w2.notifications ++
    [{ ntype := "marking_failed",
       title := "Marking failed for " ++ w2.paperTitle,
       message := "There was an error marking your paper. Please try submitting again.",
       link := "/papers/" ++ toString w2.paperId ++ "/results/" ++ toString w2.attemptId }] })

/-- `_run_marking` (marking_runner.py lines 57-219): the `try` body with the
recovery handler on exception; a failing recovery is itself swallowed. -/
def run_marking (w : World) : World :=
  let w := { w with trace := [w.progress.status] }
  match marking_main w with
  | Except.ok (_, w2) => w2
  | Except.error w2 =>
    match marking_handler w2 with
    | Except.ok (_, w3) => w3
    | Except.error w3 => w3

/-! ### The HTTP submit handler

`AttemptSubmitView.post` (src/backend/apps/attempts/views.py lines 60-100)
as checked in: it validates the `in_progress` status, then marks MCQs,
grades every written answer through `AIMarkingService` *in the request
path*, sets the attempt to `marked` and computes the score before
responding.  Nothing in `src/` ever calls
`marking_runner.start_marking_thread`. -/

structure SubmitResult where
  response_status : Nat
  attempt : Attempt
  answers : List Answer

def attempt_submit_post (now : Nat) (ai : Nat → AIOutcome) (time_spent : Option Int)
    (attempt : Attempt) (answers : List Answer) : SubmitResult :=
  if !(attempt.status == "in_progress") then
    { response_status := 400, attempt := attempt, answers := answers }
  else
    let attempt := { attempt with
      status := "submitted", submitted_at := some now,
      time_spent_seconds := time_spent.getD 0 }
    let answers := answers.map (fun a =>
      if a.question.question_type == "mcq" then mark_mcq a else a)
    let answers := answers.enum.map (fun p =>
      if !(p.2.question.question_type == "mcq") then mark_answer now (ai p.1) p.2 else p.2)
    let attempt := { attempt with status := "marked", marked_at := some now }
    let attempt := calculate_score attempt answers
    { response_status := 200, attempt := attempt, answers := answers }

/-! ### Status-transition relations and execution predicates -/

/-- The transition relation of the amended claim: the progress path
`pending → marking → calculating → completed`, plus a jump to `failed`
from any state other than `failed` itself (including from `completed`). -/
def stepOKA (a b : String) : Bool :=
  (a == "pending" && b == "marking") ||
  (a == "marking" && b == "calculating") ||
  (a == "calculating" && b == "completed") ||
  (b == "failed" && !(a == "failed"))

/-- The transition relation of the claim as stated: as `stepOKA` but with
`failed` reachable only from non-terminal states (not from `completed`). -/
def stepOKC (a b : String) : Bool :=
  (a == "pending" && b == "marking") ||
  (a == "marking" && b == "calculating") ||
  (a == "calculating" && b == "completed") ||
  (b == "failed" && !(a == "failed") && !(a == "completed"))

/-- Every adjacent pair of a status trace satisfies the relation `f`. -/
def chainBy (f : String → String → Bool) : List String → Bool
  | a :: b :: t => f a b && chainBy f (b :: t)
  | _ => true

/-- Mid-run invariant: the persisted status is `σ`, the trace ends in `σ`,
and the trace so far only took amended-relation transitions. -/
def TraceInv (σ : String) (w : World) : Prop :=
  w.progress.status = σ ∧ w.trace.getLast? = some σ ∧ chainBy stepOKA w.trace = true

/-- What holds of the state carried by any exception escaping the `try`
body: a valid trace ending in the persisted status, which is never
`failed` (the main flow writes only pending/marking/calculating/completed). -/
def ExcInv (w : World) : Prop :=
  w.trace.getLast? = some w.progress.status ∧ chainBy stepOKA w.trace = true ∧
    w.progress.status ≠ "failed"

/-- Hoare triple over `MW`: from states satisfying `P`, normal termination
satisfies `Q` and any escaping exception state satisfies `E`. -/
def MTriple {α : Type} (P : World → Prop) (m : MW α) (Q : α → World → Prop)
    (E : World → Prop) : Prop :=
  ∀ w, P w →
    (∀ a w2, m w = Except.ok (a, w2) → Q a w2) ∧
    (∀ w2, m w = Except.error w2 → E w2)

/-- Fields of the world a computation leaves untouched; used to carry frame
conditions through the MCQ pass for the mid-workflow failure scenario. -/
def FrameEq (w w2 : World) : Prop :=
  w2.attempt = w.attempt ∧ w2.progress = w.progress ∧ w2.trace = w.trace ∧
  w2.notifications = w.notifications ∧ w2.user = w.user ∧
  w2.sessions = w.sessions ∧ w2.topics = w.topics ∧ w2.faults = w.faults ∧
  w2.emails = w.emails

/-! ### Concrete exhibits used by counterexamples and witnesses -/

/-- A 10-mark short-answer question with no marking scheme. -/
def exQuestion : Question :=
  { question_number := "2", question_text := "Explain photosynthesis.",
    question_type := "short_answer", marks := 10, correct_answer := "",
    marking_scheme := "", sample_answer := "", order := 2, topics := [1] }

/-- An unmarked answer to `exQuestion` whose text is exactly 30 characters. -/
def exAnswer30 : Answer :=
  { question := exQuestion, answer_text := "Plants use light to make food.",
    selected_option := "", is_correct := none, score := none, feedback := "",
    ai_marked := false, marked_at := none, confidence_score := none,
    confidence_level := "" }

/-- An answer whose text is whitespace only. -/
def exAnswerWs : Answer := { exAnswer30 with answer_text := "   " }

/-- A 5-mark MCQ whose correct key is "B", answered with "B". -/
def exMcqAnswer : Answer :=
  { exAnswer30 with
    question := { exQuestion with question_type := "mcq", correct_answer := "B", marks := 5 },
    selected_option := "B" }

/-- The fault vector of scenario D: every operation succeeds except the
AI-service construction (`AIMarkingService()` at marking_runner.py line 107),
which raises after the MCQ pass and before any written answer is marked. -/
def serviceInitFault : Faults := { noFaults with serviceInit := true }

/-- Frame predicate: the attempt row and the fault vector are untouched. -/
def KeepsAF (A : Attempt) (F : Faults) (w : World) : Prop :=
  w.attempt = A ∧ w.faults = F

/-- Frame predicate: the user row is untouched. -/
def KeepsU (U : User) (w : World) : Prop := w.user = U

/-- A fresh progress row in status `pending`. -/
def prog0 : MarkingProgress :=
  { status := "pending", questions_marked := 0, total_questions := 0,
    current_question_number := "", current_question_text := "", messages := [],
    error_message := "", notification_sent := false, email_sent := false,
    last_polled_at := none, started_at := none, completed_at := none }

/-- A freshly submitted attempt with no scores yet. -/
def att0 : Attempt :=
  { status := "submitted", submitted_at := some 0, marked_at := none,
    total_score := none, percentage := none, time_spent_seconds := 60 }

/-- A user with email notifications off and no streak. -/
def user0 : User :=
  { email_notifications := false, current_streak_days := 0,
    longest_streak_days := 0, last_activity_at := none }

/-- A submitted zero-answer attempt about to be marked, with no faults. -/
def world0 : World :=
  { attempt := att0, answers := [], progress := prog0, user := user0,
    sessions := [], topics := [], notifications := [], emails := 0,
    paperTitle := "P1", paperId := 1, attemptId := 1, today := 100, time := 1,
    coin := fun _ => false, coinIdx := 0, pick := fun _ => 0, pickIdx := 0,
    ai := fun _ => AIOutcome.unavailable, faults := noFaults, trace := [] }

/-- `world0` with the completion-notification insert raising: the failure
happens after the progress row was already persisted as `completed`. -/
def worldC4 : World := { world0 with faults := { noFaults with notifCreate := true } }

/-- `world0` under the scenario-D fault vector. -/
def worldC5 : World := { world0 with faults := serviceInitFault }

/-- `world0` for a user nine days into a streak record of seven. -/
def c10w : World := { world0 with user :=
  { email_notifications := false, current_streak_days := 3,
    longest_streak_days := 7, last_activity_at := none } }

/-- The world left by one concrete progress-table sync run on `c10w`. -/
def wSync0 : World :=
  match sync_progress_tables att0 c10w with
  | Except.ok (_, w2) => w2
  | Except.error w2 => w2

/-- An attempt still in progress, as the submit endpoint requires. -/
def attIP : Attempt :=
  { status := "in_progress", submitted_at := none, marked_at := none,
    total_score := none, percentage := none, time_spent_seconds := 0 }

/-- A 10-mark written question. -/
def qw1 : Question :=
  { question_number := "2", question_text := "Explain photosynthesis",
    question_type := "written", marks := 10, correct_answer := "",
    marking_scheme := "", sample_answer := "", order := 1, topics := [] }

/-- A 17-character written answer to `qw1`. -/
def aw1 : Answer :=
  { question := qw1, answer_text := "Plants use light.", selected_option := "",
    is_correct := none, score := none, feedback := "", ai_marked := false,
    marked_at := none, confidence_score := none, confidence_level := "" }

/-! ## Theorems -/

theorem roundHalfEven_intCast (n : ℤ) : roundHalfEven (n : ℚ) = n := by
  unfold roundHalfEven
  rw [Int.floor_intCast]
  norm_num

theorem pyRound2_quarter (m : ℤ) : pyRound2 ((m : ℚ) * (1 / 4)) = (m : ℚ) * (1 / 4) := by
  unfold pyRound2
  rw [show ((m : ℚ) * (1 / 4)) * 100 = ((25 * m : ℤ) : ℚ) by push_cast; ring,
    roundHalfEven_intCast]
  push_cast
  ring

theorem pyRound2_half (m : ℤ) : pyRound2 ((m : ℚ) * (1 / 2)) = (m : ℚ) * (1 / 2) := by
  unfold pyRound2
  rw [show ((m : ℚ) * (1 / 2)) * 100 = ((50 * m : ℤ) : ℚ) by push_cast; ring,
    roundHalfEven_intCast]
  push_cast
  ring

theorem pyRound2_threefifths (m : ℤ) : pyRound2 ((m : ℚ) * (3 / 5)) = (m : ℚ) * (3 / 5) := by
  unfold pyRound2
  rw [show ((m : ℚ) * (3 / 5)) * 100 = ((60 * m : ℤ) : ℚ) by push_cast; ring,
    roundHalfEven_intCast]
  push_cast
  ring

/-- C3 (counterexample): on the exact response text `[{"a":1},{"a":2` —
which contains no `]` at all — the extraction step of
`_extract_questions_with_vision`/`_extract_questions_with_ai` finds no
closing bracket, never reaches the repair logic, and returns no result;
it does not return the repaired array `[{"a":1}]` as the claim states. -/
theorem c3_truncated_array_returns_none :
    extract_questions_json "[\x7b\"a\":1\x7d,\x7b\"a\":2" = none ∧
    ¬ (extract_questions_json "[\x7b\"a\":1\x7d,\x7b\"a\":2"
        = some (Json.arr [Json.obj [("a", Json.int 1)]])) :=
  ⟨rfl, fun h => Option.noConfusion
    ((rfl : extract_questions_json "[\x7b\"a\":1\x7d,\x7b\"a\":2" = none) ▸ h)⟩

/-- C3 (amended): the substring-location step needs at least one `]` in the
response.  When the truncated array is followed by a closing bracket —
`[{"a":1},{"a":2]` — the full parse fails and the `rfind('},')` repair
recovers the leading well-formed objects, returning the parsed `[{"a":1}]`. -/
theorem c3_repair_recovers_leading_objects :
    extract_questions_json "[\x7b\"a\":1\x7d,\x7b\"a\":2]"
      = some (Json.arr [Json.obj [("a", Json.int 1)]]) := rfl

/-- C7: for every answer whose question is an MCQ, `mark_mcq` sets
`is_correct` exactly when the selected option equals the question's correct
answer, gives full marks or zero accordingly, and always writes confidence
1.0/'high' — the function consults no AI oracle, so the result is the same
whatever the AI service state. -/
theorem c7_mark_mcq_deterministic (a : Answer) (h : a.question.question_type = "mcq") :
    ((mark_mcq a).is_correct = some true ↔ a.selected_option = a.question.correct_answer) ∧
    (mark_mcq a).score = some
      (if a.selected_option = a.question.correct_answer
       then ((a.question.marks : Int) : ℚ) else 0) ∧
    (mark_mcq a).confidence_score = some 1 ∧
    (mark_mcq a).confidence_level = "high" ∧
    (mark_mcq a).ai_marked = false := by
  refine ⟨?_, ?_, ?_, ?_, ?_⟩ <;> simp [mark_mcq, h]

theorem c7_mark_mcq_witness :
    exMcqAnswer.question.question_type = "mcq" ∧
    ((mark_mcq exMcqAnswer).is_correct = some true ↔
      exMcqAnswer.selected_option = exMcqAnswer.question.correct_answer) ∧
    (mark_mcq exMcqAnswer).score = some
      (if exMcqAnswer.selected_option = exMcqAnswer.question.correct_answer
       then ((exMcqAnswer.question.marks : Int) : ℚ) else 0) ∧
    (mark_mcq exMcqAnswer).confidence_score = some 1 ∧
    (mark_mcq exMcqAnswer).confidence_level = "high" ∧
    (mark_mcq exMcqAnswer).ai_marked = false :=
  ⟨rfl, c7_mark_mcq_deterministic exMcqAnswer rfl⟩

/-- C9: an answer whose text is empty or whitespace is graded by the
short-circuit at the top of `mark_answer`: score 0, `is_correct = false`,
confidence 1.0/'high', and — although no AI call is made (the result is
the same for every AI outcome `ai`) — `ai_marked` is persisted as `true`,
so the flag does not witness an actual AI grading call. -/
theorem c9_empty_answer_ai_marked (now : Nat) (ai : AIOutcome) (a : Answer)
    (h : pyStrip a.answer_text = "") :
    mark_answer now ai a =
      { a with
        score := some 0, feedback := "No answer provided.",
        is_correct := some false, ai_marked := true, marked_at := some now,
        confidence_score := some 1, confidence_level := "high" } := by
  simp [mark_answer, h]

theorem c9_empty_answer_witness :
    pyStrip exAnswerWs.answer_text = "" ∧
    mark_answer 3 AIOutcome.raises exAnswerWs =
      { exAnswerWs with
        score := some 0, feedback := "No answer provided.",
        is_correct := some false, ai_marked := true, marked_at := some 3,
        confidence_score := some 1, confidence_level := "high" } :=
  ⟨rfl, c9_empty_answer_ai_marked 3 AIOutcome.raises exAnswerWs rfl⟩

/-- C8: the fallback heuristic is a pure function of the trimmed answer
text and the question's marks (answers agreeing on those get identical
score and feedback), it is idempotent (scoring fields are not inputs), and
on a 30-character trimmed answer it yields exactly `marks × 0.5` with
confidence 0.3 and `ai_marked = false`. -/
theorem c8_fallback_pure_idempotent (now : Nat) (a b : Answer)
    (hpure1 : pyStrip a.answer_text = pyStrip b.answer_text)
    (hpure2 : a.question.marks = b.question.marks) :
    (fallback_marking now a).score = (fallback_marking now b).score ∧
    (fallback_marking now a).feedback = (fallback_marking now b).feedback ∧
    fallback_marking now (fallback_marking now a) = fallback_marking now a ∧
    ((pyStrip a.answer_text).length = 30 →
      (fallback_marking now a).score = some (((a.question.marks : Int) : ℚ) * (1 / 2)) ∧
      (fallback_marking now a).confidence_score = some (3 / 10) ∧
      (fallback_marking now a).confidence_level = "low" ∧
      (fallback_marking now a).ai_marked = false) := by
  refine ⟨by simp [fallback_marking, hpure1, hpure2],
          by simp [fallback_marking, hpure1, hpure2],
          by simp [fallback_marking], ?_⟩
  intro h30
  have hne : pyStrip a.answer_text ≠ "" := by
    intro hh
    rw [hh] at h30
    simp at h30
  refine ⟨?_, rfl, rfl, rfl⟩
  simp only [fallback_marking, if_neg hne, h30]
  norm_num [pyRound2_half]

theorem c8_fallback_witness :
    pyStrip exAnswer30.answer_text = pyStrip exAnswer30.answer_text ∧
    (pyStrip exAnswer30.answer_text).length = 30 ∧
    fallback_marking 0 (fallback_marking 0 exAnswer30) = fallback_marking 0 exAnswer30 ∧
    (fallback_marking 0 exAnswer30).score
      = some (((exAnswer30.question.marks : Int) : ℚ) * (1 / 2)) ∧
    (fallback_marking 0 exAnswer30).confidence_score = some (3 / 10) ∧
    (fallback_marking 0 exAnswer30).ai_marked = false :=
  ⟨rfl, rfl,
    (c8_fallback_pure_idempotent 0 exAnswer30 exAnswer30 rfl rfl).2.2.1,
    ((c8_fallback_pure_idempotent 0 exAnswer30 exAnswer30 rfl rfl).2.2.2 rfl).1,
    ((c8_fallback_pure_idempotent 0 exAnswer30 exAnswer30 rfl rfl).2.2.2 rfl).2.1,
    ((c8_fallback_pure_idempotent 0 exAnswer30 exAnswer30 rfl rfl).2.2.2 rfl).2.2.2⟩

theorem pyGtQ_false_le (v : Json) (c : ℚ) (h : pyGtQ v c = Except.ok false) :
    jsonNumVal v ≤ c := by
  cases v <;> simp [pyGtQ, jsonNumVal] at h ⊢
  case int n => exact h
  case float q => exact h
  case bool b => exact h

theorem fallback_confidence (now : Nat) (a : Answer) :
    (fallback_marking now a).confidence_score = some (3 / 10) := rfl

theorem apply_parse_confidence (now : Nat) (a : Answer) (r : MarkParse)
    (hms : a.question.marking_scheme = "") :
    ∀ c, (apply_parse_result now a r).confidence_score = some c → c ≤ 79 / 100 := by
  intro c hc
  simp only [apply_parse_result, hms, eq_self_iff_true, if_true] at hc
  cases hg : pyGtQ r.confidence (79 / 100) with
  | error e =>
    simp only [hg, Except.map] at hc
    rw [fallback_confidence] at hc
    have := Option.some_inj.mp hc
    norm_num [← this]
  | ok gt =>
    simp only [hg, Except.map] at hc
    have hval : jsonNumVal (if gt then Json.float (79 / 100) else r.confidence) ≤ 79 / 100 := by
      cases gt with
      | true => simp [jsonNumVal]
      | false => simpa using pyGtQ_false_le _ _ hg
    cases hge : pyGeQ (if gt then Json.float (79 / 100) else r.confidence) (4 / 5) with
    | error e =>
      simp only [hge] at hc
      rw [fallback_confidence] at hc
      have := Option.some_inj.mp hc
      norm_num [← this]
    | ok hi =>
      simp only [hge] at hc
      cases hi with
      | true =>
        simp only [if_pos rfl] at hc
        have := Option.some_inj.mp hc
        rw [← this]
        exact hval
      | false =>
        simp only [Bool.false_eq_true, if_false] at hc
        cases hme : pyGeQ (if gt then Json.float (79 / 100) else r.confidence) (1 / 2) with
        | error e =>
          simp only [hme] at hc
          rw [fallback_confidence] at hc
          have := Option.some_inj.mp hc
          norm_num [← this]
        | ok med =>
          simp only [hme] at hc
          have := Option.some_inj.mp hc
          rw [← this]
          exact hval

/-- C6 (amended): for every answer with non-empty trimmed text graded on a
question with no marking scheme, the persisted `confidence_score` never
exceeds 0.79, whatever the AI outcome: successful parses are capped at
0.79, the fallback heuristic writes 0.3, and the parser's safe default
writes 0.5.  (The empty-answer short-circuit, excluded here, writes 1.0 —
see the counterexample.) -/
theorem c6_confidence_capped_without_scheme (now : Nat) (ai : AIOutcome) (a : Answer)
    (hms : a.question.marking_scheme = "") (h : pyStrip a.answer_text ≠ "") :
    ∀ c, (mark_answer now ai a).confidence_score = some c → c ≤ 79 / 100 := by
  intro c hc
  cases ai with
  | unavailable =>
    simp only [mark_answer, if_neg h, fallback_confidence] at hc
    have := Option.some_inj.mp hc
    norm_num [← this]
  | raises =>
    simp only [mark_answer, if_neg h, fallback_confidence] at hc
    have := Option.some_inj.mp hc
    norm_num [← this]
  | replies txt =>
    simp only [mark_answer, if_neg h] at hc
    cases hp : parse_marking_response txt a.question.marks with
    | error e =>
      rw [hp] at hc
      rw [fallback_confidence] at hc
      have := Option.some_inj.mp hc
      norm_num [← this]
    | ok r =>
      rw [hp] at hc
      exact apply_parse_confidence now a r hms c hc

theorem c6_confidence_capped_witness :
    exAnswer30.question.marking_scheme = "" ∧
    pyStrip exAnswer30.answer_text ≠ "" ∧
    (mark_answer 0 (AIOutcome.replies
        "\x7b\"score\": 12, \"feedback\": \"Good\", \"confidence\": 0.95\x7d")
      exAnswer30).confidence_score = some (79 / 100) ∧
    (79 / 100 : ℚ) ≤ 79 / 100 :=
  ⟨rfl, by decide,
    by with_unfolding_all decide,
    c6_confidence_capped_without_scheme 0
      (AIOutcome.replies "\x7b\"score\": 12, \"feedback\": \"Good\", \"confidence\": 0.95\x7d")
      exAnswer30 rfl (by decide) (79 / 100) (by with_unfolding_all decide)⟩

/-- C6 (counterexample): an answer whose text is whitespace only, on a
question with no marking scheme, is persisted by `mark_answer` with
`confidence_score = 1.0` — above the claimed 0.79 bound — because the
empty-answer short-circuit runs before any confidence capping. -/
theorem c6_empty_answer_confidence_one :
    exAnswerWs.question.marking_scheme = "" ∧
    (mark_answer 0 AIOutcome.unavailable exAnswerWs).confidence_score = some 1 ∧
    (79 / 100 : ℚ) < 1 :=
  ⟨rfl, by with_unfolding_all decide, by norm_num⟩

/-- C2 (amended): for every non-MCQ answer with non-empty trimmed text, the
service-unavailable and transport-error failure modes end in the
length-based heuristic — 25% of marks under 20 characters, 50% under 50,
60% otherwise, confidence 0.3/'low', `ai_marked = false`.  (Unparseable
model output is handled differently — see the counterexample.) -/
theorem c2_fallback_on_unavailable_or_transport (now : Nat) (a : Answer)
    (h : pyStrip a.answer_text ≠ "") :
    mark_answer now AIOutcome.unavailable a = fallback_marking now a ∧
    mark_answer now AIOutcome.raises a = fallback_marking now a ∧
    (fallback_marking now a).ai_marked = false ∧
    (fallback_marking now a).confidence_score = some (3 / 10) ∧
    (fallback_marking now a).confidence_level = "low" ∧
    (fallback_marking now a).score = some
      (if (pyStrip a.answer_text).length < 20 then ((a.question.marks : Int) : ℚ) * (1 / 4)
       else if (pyStrip a.answer_text).length < 50 then ((a.question.marks : Int) : ℚ) * (1 / 2)
       else ((a.question.marks : Int) : ℚ) * (3 / 5)) := by
  refine ⟨by simp [mark_answer, h], by simp [mark_answer, h], rfl, rfl, rfl, ?_⟩
  simp only [fallback_marking, if_neg h]
  split
  · rw [pyRound2_quarter]
  · split
    · rw [pyRound2_half]
    · rw [pyRound2_threefifths]

theorem c2_fallback_witness :
    pyStrip exAnswer30.answer_text ≠ "" ∧
    mark_answer 7 AIOutcome.raises exAnswer30 = fallback_marking 7 exAnswer30 ∧
    (fallback_marking 7 exAnswer30).confidence_score = some (3 / 10) :=
  ⟨by decide,
    (c2_fallback_on_unavailable_or_transport 7 exAnswer30 (by decide)).2.1,
    (c2_fallback_on_unavailable_or_transport 7 exAnswer30 (by decide)).2.2.2.1⟩

/-- C2 (counterexample): on unparseable model output (a reply with no JSON
object at all), `_parse_marking_response` returns its safe default and
`mark_answer` persists score = 50% of marks with confidence 0.5/'medium'
and `ai_marked = true` — not the length heuristic with confidence 0.3/'low'
and `ai_marked = false` that the claim asserts for every extraction
failure. -/
theorem c2_unparseable_gives_safe_default :
    (mark_answer 0 (AIOutcome.replies "The score is five.") exAnswer30).ai_marked = true ∧
    (mark_answer 0 (AIOutcome.replies "The score is five.") exAnswer30).confidence_level
      = "medium" ∧
    (mark_answer 0 (AIOutcome.replies "The score is five.") exAnswer30).confidence_score
      = some (1 / 2) ∧
    ¬ ((mark_answer 0 (AIOutcome.replies "The score is five.") exAnswer30).ai_marked = false
        ∧ (mark_answer 0 (AIOutcome.replies "The score is five.") exAnswer30).confidence_score
            = some (3 / 10)) := by
  refine ⟨?_, ?_, ?_, ?_⟩ <;> with_unfolding_all decide

theorem MW_bind_def {α β : Type} (x : MW α) (f : α → MW β) (w : World) :
    (x >>= f) w =
      match x w with
      | Except.error w2 => Except.error w2
      | Except.ok (a, w2) => f a w2 := rfl

theorem MW_pure_def {α : Type} (a : α) (w : World) :
    (pure a : MW α) w = Except.ok (a, w) := rfl

theorem MTriple.bind {α β : Type} {P : World → Prop} {Q : α → World → Prop}
    {R : β → World → Prop} {E : World → Prop} {x : MW α} {f : α → MW β}
    (hx : MTriple P x Q E) (hf : ∀ a, MTriple (Q a) (f a) R E) :
    MTriple P (x >>= f) R E := by
  intro w hw
  constructor
  · intro b w2 hok
    rw [MW_bind_def] at hok
    cases hx1 : x w with
    | error w3 => rw [hx1] at hok; exact absurd hok (by simp)
    | ok p =>
      rw [hx1] at hok
      exact ((hf p.1 p.2 ((hx w hw).1 p.1 p.2 hx1)).1 b w2) hok
  · intro w2 herr
    rw [MW_bind_def] at herr
    cases hx1 : x w with
    | error w3 =>
      rw [hx1] at herr
      injection herr with h3
      exact h3 ▸ (hx w hw).2 w3 hx1
    | ok p =>
      rw [hx1] at herr
      exact ((hf p.1 p.2 ((hx w hw).1 p.1 p.2 hx1)).2 w2) herr

theorem MTriple.pure {α : Type} {P : World → Prop} {Q : α → World → Prop}
    {E : World → Prop} (a : α) (h : ∀ w, P w → Q a w) :
    MTriple P (pure a : MW α) Q E := by
  intro w hw
  constructor
  · intro b w2 hok
    rw [MW_pure_def] at hok
    cases hok
    exact h w hw
  · intro w2 herr
    rw [MW_pure_def] at herr
    cases herr

theorem MTriple.conseq {α : Type} {P P2 : World → Prop} {Q Q2 : α → World → Prop}
    {E E2 : World → Prop} {m : MW α} (h : MTriple P m Q E)
    (hp : ∀ w, P2 w → P w) (hq : ∀ a w, Q a w → Q2 a w) (he : ∀ w, E w → E2 w) :
    MTriple P2 m Q2 E2 := by
  intro w hw
  refine ⟨fun a w2 hok => hq a w2 ((h w (hp w hw)).1 a w2 hok),
          fun w2 herr => he w2 ((h w (hp w hw)).2 w2 herr)⟩

theorem trip_mstep {P E : World → Prop} (b : Bool) (h : ∀ w, P w → E w) :
    MTriple P (mstep b) (fun _ => P) E := by
  intro w hw
  constructor
  · intro a w2 hok
    unfold mstep at hok
    cases b with
    | true => simp at hok
    | false => simp at hok; rw [← hok]; exact hw
  · intro w2 herr
    unfold mstep at herr
    cases b with
    | true => simp at herr; rw [← herr]; exact h w hw
    | false => simp at herr

theorem trip_mget {P : World → Prop} {E : World → Prop} :
    MTriple P mget (fun a w => P w ∧ a = w) E := by
  intro w hw
  refine ⟨fun a w2 hok => ?_, fun w2 herr => by cases herr⟩
  cases hok
  exact ⟨hw, rfl⟩

theorem trip_mmod {P : World → Prop} {Q : Unit → World → Prop} {E : World → Prop}
    (f : World → World) (h : ∀ w, P w → Q () (f w)) :
    MTriple P (mmod f) Q E := by
  intro w hw
  refine ⟨fun a w2 hok => ?_, fun w2 herr => by cases herr⟩
  simp only [mmod, Except.ok.injEq, Prod.mk.injEq] at hok
  rcases hok with ⟨h1, h2⟩
  subst h2
  cases a
  exact h w hw

theorem chainBy_snoc (f : String → String → Bool) (t : List String) (a b : String)
    (hl : t.getLast? = some a) (hc : chainBy f t = true) (hf : f a b = true) :
    chainBy f (t ++ [b]) = true := by
  induction t with
  | nil => simp at hl
  | cons x r ih =>
    cases r with
    | nil =>
      simp only [List.getLast?_singleton, Option.some_inj] at hl
      subst hl
      simp [chainBy, hf]
    | cons y s =>
      simp only [chainBy, Bool.and_eq_true] at hc
      have hl2 : (y :: s).getLast? = some a := by
        rwa [List.getLast?_cons_cons] at hl
      have := ih hl2 hc.2
      simp only [List.cons_append, chainBy, Bool.and_eq_true]
      exact ⟨hc.1, by simpa using this⟩

theorem trip_mnow {σ : String} {E : World → Prop} :
    MTriple (TraceInv σ) mnow (fun _ w => TraceInv σ w) E := by
  intro w hw
  refine ⟨fun a w2 hok => ?_, fun w2 herr => by cases herr⟩
  simp only [mnow, Except.ok.injEq, Prod.mk.injEq] at hok
  rcases hok with ⟨h1, h2⟩
  subst h2
  exact hw

theorem trip_mcoin {σ : String} {E : World → Prop} :
    MTriple (TraceInv σ) mcoin (fun _ w => TraceInv σ w) E := by
  intro w hw
  refine ⟨fun a w2 hok => ?_, fun w2 herr => by cases herr⟩
  simp only [mcoin, Except.ok.injEq, Prod.mk.injEq] at hok
  rcases hok with ⟨h1, h2⟩
  subst h2
  exact hw

theorem trip_mchoice {σ : String} {E : World → Prop} (msgs : List String) :
    MTriple (TraceInv σ) (mchoice msgs) (fun _ w => TraceInv σ w) E := by
  intro w hw
  refine ⟨fun a w2 hok => ?_, fun w2 herr => by cases herr⟩
  simp only [mchoice, Except.ok.injEq, Prod.mk.injEq] at hok
  rcases hok with ⟨h1, h2⟩
  subst h2
  exact hw

theorem trip_madd {σ σp : String} {E : World → Prop} (p : MarkingProgress)
    (hp : p.status = σp) (kind text : String) :
    MTriple (TraceInv σ) (madd_message p kind text)
      (fun p2 w => p2.status = σp ∧ TraceInv σ w) E := by
  intro w hw
  refine ⟨fun a w2 hok => ?_, fun w2 herr => by cases herr⟩
  simp only [madd_message, Except.ok.injEq, Prod.mk.injEq] at hok
  rcases hok with ⟨h1, h2⟩
  subst h2
  subst h1
  exact ⟨hp, hw⟩

theorem trip_commit_keep {σ : String} {E : World → Prop} (p : MarkingProgress)
    (hp : p.status = σ) :
    MTriple (TraceInv σ) (mcommit_progress p) (fun _ w => TraceInv σ w) E := by
  intro w hw
  obtain ⟨hs, hl, hc⟩ := hw
  refine ⟨fun a w2 hok => ?_, fun w2 herr => by cases herr⟩
  simp only [mcommit_progress, Except.ok.injEq, Prod.mk.injEq] at hok
  rcases hok with ⟨h1, h2⟩
  subst h2
  have heq : (p.status == w.progress.status) = true := by
    rw [hp, hs]
    simp
  refine ⟨by simpa using hp, ?_, ?_⟩
  · simpa [heq] using hl
  · simpa [heq] using hc

theorem trip_commit_change {σ σ2 : String} {E : World → Prop} (p : MarkingProgress)
    (hp : p.status = σ2) (hne : σ2 ≠ σ) (hstep : stepOKA σ σ2 = true) :
    MTriple (TraceInv σ) (mcommit_progress p) (fun _ w => TraceInv σ2 w) E := by
  intro w hw
  obtain ⟨hs, hl, hc⟩ := hw
  refine ⟨fun a w2 hok => ?_, fun w2 herr => by cases herr⟩
  simp only [mcommit_progress, Except.ok.injEq, Prod.mk.injEq] at hok
  rcases hok with ⟨h1, h2⟩
  subst h2
  have heq : (p.status == w.progress.status) = false := by
    rw [hp, hs]
    simpa using hne
  refine ⟨by simpa using hp, ?_, ?_⟩
  · simp only [heq, Bool.false_eq_true, if_false]
    rw [hp, List.getLast?_concat]
  · simp only [heq, Bool.false_eq_true, if_false]
    rw [hp]
    exact chainBy_snoc stepOKA w.trace σ σ2 hl hc hstep

theorem trip_save_keep {σ : String} {E : World → Prop} (b : Bool) (p : MarkingProgress)
    (hp : p.status = σ) (hE : ∀ w, TraceInv σ w → E w) :
    MTriple (TraceInv σ) (msave_progress b p) (fun _ w => TraceInv σ w) E :=
  MTriple.bind (trip_mstep b hE) (fun _ => trip_commit_keep p hp)

theorem trip_save_change {σ σ2 : String} {E : World → Prop} (b : Bool) (p : MarkingProgress)
    (hp : p.status = σ2) (hne : σ2 ≠ σ) (hstep : stepOKA σ σ2 = true)
    (hE : ∀ w, TraceInv σ w → E w) :
    MTriple (TraceInv σ) (msave_progress b p) (fun _ w => TraceInv σ2 w) E :=
  MTriple.bind (trip_mstep b hE) (fun _ => trip_commit_change p hp hne hstep)

theorem trip_mmod_inv {σ : String} {E : World → Prop} (f : World → World)
    (hf : ∀ w, (f w).progress = w.progress ∧ (f w).trace = w.trace) :
    MTriple (TraceInv σ) (mmod f) (fun _ w => TraceInv σ w) E := by
  refine trip_mmod f (fun w hw => ?_)
  obtain ⟨hs, hl, hc⟩ := hw
  exact ⟨(hf w).1 ▸ hs, (hf w).2 ▸ hl, (hf w).2 ▸ hc⟩

theorem mark_mcq_loop_inv (l : List Nat) (σ : String)
    {E : World → Prop} (hE : ∀ w, TraceInv σ w → E w) :
    ∀ p cnt, p.status = σ →
      MTriple (TraceInv σ) (mark_mcq_loop l p cnt)
        (fun pc w => pc.1.status = σ ∧ TraceInv σ w) E := by
  induction l with
  | nil =>
    intro p cnt hp
    simp only [mark_mcq_loop]
    exact MTriple.pure _ (fun w hw => ⟨hp, hw⟩)
  | cons i rest ih =>
    intro p cnt hp
    simp only [mark_mcq_loop]
    refine MTriple.bind trip_mget (fun w0 => ?_)
    refine MTriple.bind
      (MTriple.conseq (trip_mstep (w0.faults.mcqMark i) hE)
        (fun w hw => hw.1) (fun a w h => h) (fun w h => h)) (fun _ => ?_)
    refine MTriple.bind (trip_mmod_inv _ (fun w => ⟨rfl, rfl⟩)) (fun _ => ?_)
    exact ih _ _ hp

theorem MTriple.pull {α : Type} {P : World → Prop} {Q : α → World → Prop}
    {E : World → Prop} {m : MW α} (F : Prop) (h : F → MTriple P m Q E) :
    MTriple (fun w => F ∧ P w) m Q E :=
  fun w hw => h hw.1 w hw.2

theorem MTriple.split_ite (c : Prop) [Decidable c] {α : Type} {P : World → Prop}
    {Q : α → World → Prop} {E : World → Prop} {m1 m2 : MW α}
    (h1 : c → MTriple P m1 Q E) (h2 : ¬c → MTriple P m2 Q E) :
    MTriple P (if c then m1 else m2) Q E := by
  by_cases hc : c
  · simpa [hc] using h1 hc
  · simpa [hc] using h2 hc

theorem trip_madd_save {σ : String} {E : World → Prop} (hE : ∀ w, TraceInv σ w → E w)
    (b : Bool) (p : MarkingProgress) (kind text : String) (hp : p.status = σ) :
    MTriple (TraceInv σ)
      (madd_message p kind text >>= fun p2 => msave_progress b p2 >>= fun _ => pure p2)
      (fun p2 w => p2.status = σ ∧ TraceInv σ w) E := by
  refine MTriple.bind (trip_madd p hp kind text) (fun p2 => ?_)
  refine MTriple.pull _ (fun hp2 => ?_)
  refine MTriple.bind (trip_save_keep b p2 hp2 hE) (fun _ => ?_)
  exact MTriple.pure _ (fun w hw => ⟨hp2, hw⟩)

theorem trip_fun_message {σ : String} {E : World → Prop} (hE : ∀ w, TraceInv σ w → E w)
    (c fl : Bool) (p : MarkingProgress) (hp : p.status = σ) :
    MTriple (TraceInv σ) (fun_message_step c fl p)
      (fun p2 w => p2.status = σ ∧ TraceInv σ w) E := by
  cases c with
  | true =>
    simp only [fun_message_step, if_true]
    refine MTriple.bind (trip_mchoice _) (fun msg => ?_)
    exact trip_madd_save hE fl p "fun" msg hp
  | false =>
    simp only [fun_message_step, Bool.false_eq_true, if_false]
    exact MTriple.pure _ (fun w hw => ⟨hp, hw⟩)

theorem trip_flavor {σ : String} {E : World → Prop} (hE : ∀ w, TraceInv σ w → E w)
    (fl : Bool) (score : ℚ) (max_marks : Int) (p : MarkingProgress) (hp : p.status = σ) :
    MTriple (TraceInv σ) (flavor_step fl score max_marks p)
      (fun p2 w => p2.status = σ ∧ TraceInv σ w) E := by
  unfold flavor_step
  refine MTriple.split_ite _ (fun h1 => ?_) (fun h1 => MTriple.pure _ (fun w hw => ⟨hp, hw⟩))
  refine MTriple.split_ite _ (fun h2 => ?_) (fun h2 => ?_)
  · refine MTriple.bind (trip_mchoice _) (fun msg => ?_)
    exact trip_madd_save hE fl p "fun" msg hp
  · refine MTriple.split_ite _ (fun h3 => ?_) (fun h3 => MTriple.pure _ (fun w hw => ⟨hp, hw⟩))
    refine MTriple.bind (trip_mchoice _) (fun msg => ?_)
    exact trip_madd_save hE fl p "fun" msg hp

theorem trip_milestone {σ : String} {E : World → Prop} (hE : ∀ w, TraceInv σ w → E w)
    (fl : Bool) (idx total halfway : Nat) (p : MarkingProgress) (hp : p.status = σ) :
    MTriple (TraceInv σ) (milestone_step fl idx total halfway p)
      (fun p2 w => p2.status = σ ∧ TraceInv σ w) E := by
  unfold milestone_step
  refine MTriple.split_ite _ (fun h1 => ?_) (fun h1 => ?_)
  · exact trip_madd_save hE fl _ "info" _ hp
  · refine MTriple.split_ite _ (fun h2 => ?_) (fun h2 => MTriple.pure _ (fun w hw => ⟨hp, hw⟩))
    exact trip_madd_save hE fl _ "info" _ hp

theorem mark_written_loop_inv (l : List Nat) (σ : String)
    {E : World → Prop} (hE : ∀ w, TraceInv σ w → E w) :
    ∀ idx total halfway p, p.status = σ →
      MTriple (TraceInv σ) (mark_written_loop l idx total halfway p)
        (fun p2 w => p2.status = σ ∧ TraceInv σ w) E := by
  induction l with
  | nil =>
    intro idx total halfway p hp
    simp only [mark_written_loop]
    exact MTriple.pure _ (fun w hw => ⟨hp, hw⟩)
  | cons i rest ih =>
    intro idx total halfway p hp
    simp only [mark_written_loop]
    refine MTriple.bind trip_mget (fun w0 => ?_)
    refine MTriple.bind
      (MTriple.conseq (trip_madd _ (by exact hp) "progress" _)
        (fun w hw => hw.1) (fun a w h => h) (fun w h => h)) (fun p1 => ?_)
    refine MTriple.pull _ (fun hp1 => ?_)
    refine MTriple.bind (trip_save_keep _ p1 hp1 hE) (fun _ => ?_)
    refine MTriple.bind trip_mcoin (fun c => ?_)
    refine MTriple.bind (trip_fun_message hE c _ p1 hp1) (fun p2 => ?_)
    refine MTriple.pull _ (fun hp2 => ?_)
    refine MTriple.bind (trip_mstep (w0.faults.gradeSave i) hE) (fun _ => ?_)
    refine MTriple.bind trip_mnow (fun t => ?_)
    refine MTriple.bind trip_mget (fun w2 => ?_)
    refine MTriple.bind
      (MTriple.conseq (trip_mmod_inv _ (fun w => ⟨rfl, rfl⟩))
        (fun w hw => hw.1) (fun a w h => h) (fun w h => h)) (fun _ => ?_)
    refine MTriple.bind (trip_mstep (w0.faults.refreshAnswer i) hE) (fun _ => ?_)
    refine MTriple.bind trip_mget (fun w4 => ?_)
    refine MTriple.bind
      (MTriple.conseq (trip_madd _ (by exact hp2) "result" _)
        (fun w hw => hw.1) (fun a w h => h) (fun w h => h)) (fun p3 => ?_)
    refine MTriple.pull _ (fun hp3 => ?_)
    refine MTriple.bind (trip_save_keep _ p3 hp3 hE) (fun _ => ?_)
    refine MTriple.bind (trip_flavor hE _ _ _ p3 hp3) (fun p4 => ?_)
    refine MTriple.pull _ (fun hp4 => ?_)
    refine MTriple.bind (trip_milestone hE _ idx total halfway p4 hp4) (fun p5 => ?_)
    refine MTriple.pull _ (fun hp5 => ?_)
    exact ih _ _ _ _ hp5

theorem MTriple.split_opt {γ α : Type} (o : Option γ) {P : World → Prop}
    {Q : α → World → Prop} {E : World → Prop} {m1 : MW α} {m2 : γ → MW α}
    (h1 : o = none → MTriple P m1 Q E) (h2 : ∀ v, o = some v → MTriple P (m2 v) Q E) :
    MTriple P (match o with | none => m1 | some v => m2 v) Q E := by
  cases o with
  | none => exact h1 rfl
  | some v => exact h2 v rfl

theorem sync_topic_loop_inv (l : List (Nat × TStats)) (σ : String)
    {E : World → Prop} (hE : ∀ w, TraceInv σ w → E w) :
    MTriple (TraceInv σ) (sync_topic_loop l) (fun _ w => TraceInv σ w) E := by
  induction l with
  | nil =>
    simp only [sync_topic_loop]
    exact MTriple.pure _ (fun w hw => hw)
  | cons x rest ih =>
    obtain ⟨tid, st⟩ := x
    simp only [sync_topic_loop]
    refine MTriple.bind trip_mget (fun w0 => ?_)
    refine MTriple.bind
      (MTriple.conseq (trip_mstep (w0.faults.syncTopic tid) hE)
        (fun w hw => hw.1) (fun a w h => h) (fun w h => h)) (fun _ => ?_)
    refine MTriple.bind trip_mnow (fun t => ?_)
    refine MTriple.bind (trip_mmod_inv _ (fun w => ?_)) (fun _ => ?_)
    · cases w.topics.find? (fun p => p.topic_id == tid) <;> exact ⟨rfl, rfl⟩
    · exact ih

theorem trip_sync (att : Attempt) (σ : String)
    {E : World → Prop} (hE : ∀ w, TraceInv σ w → E w) :
    MTriple (TraceInv σ) (sync_progress_tables att) (fun _ w => TraceInv σ w) E := by
  unfold sync_progress_tables
  refine MTriple.bind trip_mget (fun w0 => ?_)
  refine MTriple.bind
    (MTriple.conseq (trip_mstep w0.faults.syncQuery hE)
      (fun w hw => hw.1) (fun a w h => h) (fun w h => h)) (fun _ => ?_)
  refine MTriple.bind trip_mget (fun w1 => ?_)
  refine MTriple.bind
    (MTriple.conseq (sync_topic_loop_inv _ σ hE)
      (fun w hw => hw.1) (fun a w h => h) (fun w h => h)) (fun _ => ?_)
  refine MTriple.bind trip_mget (fun w2 => ?_)
  refine MTriple.bind
    (MTriple.conseq (trip_mstep w2.faults.syncSession hE)
      (fun w hw => hw.1) (fun a w h => h) (fun w h => h)) (fun _ => ?_)
  refine MTriple.bind (trip_mmod_inv _ (fun w => ?_)) (fun _ => ?_)
  · cases w.sessions.find? (fun s => s.date == w.today) <;> exact ⟨rfl, rfl⟩
  refine MTriple.bind trip_mget (fun w4 => ?_)
  refine MTriple.bind
    (MTriple.conseq (trip_mstep w4.faults.syncYesterday hE)
      (fun w hw => hw.1) (fun a w h => h) (fun w h => h)) (fun _ => ?_)
  refine MTriple.bind trip_mget (fun w5 => ?_)
  refine MTriple.bind
    (MTriple.conseq (trip_mstep w5.faults.syncStreakSave hE)
      (fun w hw => hw.1) (fun a w h => h) (fun w h => h)) (fun _ => ?_)
  refine MTriple.bind (trip_mmod_inv _ (fun w => ⟨rfl, rfl⟩)) (fun _ => ?_)
  refine MTriple.bind trip_mnow (fun t => ?_)
  refine MTriple.bind (trip_mstep w5.faults.syncUserSave hE) (fun _ => ?_)
  exact trip_mmod_inv _ (fun w => ⟨rfl, rfl⟩)

theorem trip_create_notification (att : Attempt) (p : MarkingProgress) (σ : String)
    (hp : p.status = σ) {E : World → Prop} (hE : ∀ w, TraceInv σ w → E w) :
    MTriple (TraceInv σ) (create_notification att p)
      (fun p2 w => p2.status = σ ∧ TraceInv σ w) E := by
  unfold create_notification
  refine MTriple.bind trip_mget (fun w0 => ?_)
  refine MTriple.bind
    (MTriple.conseq (trip_mstep w0.faults.notifCreate hE)
      (fun w hw => hw.1) (fun a w h => h) (fun w h => h)) (fun _ => ?_)
  refine MTriple.bind (trip_mmod_inv _ (fun w => ⟨rfl, rfl⟩)) (fun _ => ?_)
  refine MTriple.bind (trip_save_keep _ _ (by exact hp) hE) (fun _ => ?_)
  exact MTriple.pure _ (fun w hw => ⟨hp, hw⟩)

theorem trip_email_body (p : MarkingProgress) (σ : String)
    (hp : p.status = σ) {E : World → Prop} (hE : ∀ w, TraceInv σ w → E w) :
    MTriple (TraceInv σ) (email_send_body p) (fun _ w => TraceInv σ w) E := by
  unfold email_send_body
  refine MTriple.bind trip_mget (fun w0 => ?_)
  refine MTriple.bind
    (MTriple.conseq (trip_mstep w0.faults.emailQuery hE)
      (fun w hw => hw.1) (fun a w h => h) (fun w h => h)) (fun _ => ?_)
  refine MTriple.bind (trip_mmod_inv _ (fun w => ?_)) (fun _ => ?_)
  · by_cases hf : w.faults.emailSendFails <;> simp [hf]
  exact trip_save_keep _ _ (by exact hp) hE

theorem trip_maybe_email (p : MarkingProgress) (σ : String)
    (hp : p.status = σ) {E : World → Prop} (hE : ∀ w, TraceInv σ w → E w) :
    MTriple (TraceInv σ) (maybe_send_email p) (fun _ w => TraceInv σ w) E := by
  unfold maybe_send_email
  refine MTriple.bind trip_mget (fun w0 => ?_)
  refine MTriple.conseq (P := TraceInv σ) ?_ (fun w hw => hw.1) (fun a w h => h) (fun w h => h)
  refine MTriple.split_ite _ (fun h1 => MTriple.pure _ (fun w hw => hw)) (fun h1 => ?_)
  cases hl : p.last_polled_at with
  | none => exact trip_email_body p σ hp hE
  | some lp =>
    refine MTriple.bind trip_mnow (fun t => ?_)
    refine MTriple.split_ite _ (fun h2 => MTriple.pure _ (fun w hw => hw)) (fun h2 => ?_)
    exact trip_email_body p σ hp hE

theorem traceInv_excInv {σ : String} (hσ : σ ≠ "failed") :
    ∀ w, TraceInv σ w → ExcInv w := by
  intro w hw
  obtain ⟨hs, hl, hc⟩ := hw
  exact ⟨by rw [hs]; exact hl, hc, by rw [hs]; exact hσ⟩

theorem stepOKA_failed (σ : String) (h : σ ≠ "failed") : stepOKA σ "failed" = true := by
  simp [stepOKA, h]

theorem trip_handler (σ : String) (hσ : σ ≠ "failed") :
    MTriple (TraceInv σ) marking_handler
      (fun _ w => chainBy stepOKA w.trace = true)
      (fun w => chainBy stepOKA w.trace = true) := by
  unfold marking_handler
  refine MTriple.bind trip_mget (fun w0 => ?_)
  refine MTriple.bind
    (MTriple.conseq (trip_mstep w0.faults.handlerFetch (fun w hw => hw.2.2))
      (fun w hw => hw.1) (fun a w h => h) (fun w h => h)) (fun _ => ?_)
  refine MTriple.bind trip_mget (fun w1 => ?_)
  refine MTriple.bind
    (MTriple.conseq (trip_madd _ (Eq.refl "failed") "error" _)
      (fun w hw => hw.1) (fun a w h => h) (fun w h => h)) (fun p2 => ?_)
  refine MTriple.pull _ (fun hp2 => ?_)
  refine MTriple.bind trip_mnow (fun t => ?_)
  refine MTriple.bind
    (trip_save_change _ _ (by exact hp2) (fun h => hσ h.symm) (stepOKA_failed σ hσ)
      (fun w hw => hw.2.2)) (fun _ => ?_)
  refine MTriple.bind (trip_mstep w0.faults.handlerNotif (fun w hw => hw.2.2)) (fun _ => ?_)
  exact MTriple.conseq (trip_mmod_inv _ (fun w => ⟨rfl, rfl⟩))
    (fun w hw => hw) (fun a w hw => hw.2.2) (fun w hw => hw)

theorem trip_mcq_summary {σ : String} {E : World → Prop} (hE : ∀ w, TraceInv σ w → E w)
    (fl : Bool) (mcqIdx : List Nat) (cnt : Nat) (p : MarkingProgress) (hp : p.status = σ) :
    MTriple (TraceInv σ) (mcq_summary_step fl mcqIdx cnt p)
      (fun p2 w => p2.status = σ ∧ TraceInv σ w) E := by
  unfold mcq_summary_step
  refine MTriple.split_ite _ (fun h1 => MTriple.pure _ (fun w hw => ⟨hp, hw⟩)) (fun h1 => ?_)
  exact trip_madd_save hE fl p "info" _ hp

theorem excInv_pending : ∀ w, TraceInv "pending" w → ExcInv w :=
  traceInv_excInv (by decide)

theorem excInv_marking : ∀ w, TraceInv "marking" w → ExcInv w :=
  traceInv_excInv (by decide)

theorem excInv_calculating : ∀ w, TraceInv "calculating" w → ExcInv w :=
  traceInv_excInv (by decide)

theorem excInv_completed : ∀ w, TraceInv "completed" w → ExcInv w :=
  traceInv_excInv (by decide)

theorem trip_finish (attempt : Attempt) :
    MTriple (TraceInv "calculating") (finish_marking attempt)
      (fun _ w => TraceInv "completed" w) ExcInv := by
  unfold finish_marking
  refine MTriple.bind (trip_sync _ "calculating" excInv_calculating) (fun _ => ?_)
  refine MTriple.bind trip_mget (fun w5 => ?_)
  refine MTriple.bind
    (MTriple.conseq (trip_mstep w5.faults.refreshProgress excInv_calculating)
      (fun w hw => hw.1) (fun a w h => h) (fun w h => h)) (fun _ => ?_)
  refine MTriple.bind trip_mget (fun w6 => ?_)
  refine MTriple.bind
    (MTriple.conseq trip_mnow
      (fun w (hw : TraceInv "calculating" w ∧ w6 = w) => hw.1)
      (fun a w h => h) (fun w h => h)) (fun t3 => ?_)
  refine MTriple.bind (trip_madd _ (Eq.refl "completed") "complete" _) (fun p5 => ?_)
  refine MTriple.pull _ (fun hp5 => ?_)
  refine MTriple.bind
    (trip_save_change _ _ (by exact hp5) (by decide) (by decide) excInv_calculating)
    (fun _ => ?_)
  refine MTriple.bind (trip_create_notification _ _ "completed" (by exact hp5) excInv_completed)
    (fun p6 => ?_)
  refine MTriple.pull _ (fun hp6 => ?_)
  exact trip_maybe_email _ "completed" hp6 excInv_completed

theorem trip_marking_main :
    MTriple (TraceInv "pending") marking_main
      (fun _ w => chainBy stepOKA w.trace = true) ExcInv := by
  unfold marking_main
  refine MTriple.conseq ?_ (fun w hw => hw)
    (fun (a : Unit) w (hw : TraceInv "completed" w) => hw.2.2) (fun w hw => hw)
  refine MTriple.bind trip_mget (fun w0 => ?_)
  refine MTriple.bind
    (MTriple.conseq (trip_mstep w0.faults.fetch excInv_pending)
      (fun w hw => hw.1) (fun a w h => h) (fun w h => h)) (fun _ => ?_)
  refine MTriple.bind trip_mnow (fun t => ?_)
  refine MTriple.bind (trip_madd _ (Eq.refl "marking") "info" _) (fun p1 => ?_)
  refine MTriple.pull _ (fun hp1 => ?_)
  refine MTriple.bind
    (trip_save_change _ _ (by exact hp1) (by decide) (by decide) excInv_pending)
    (fun _ => ?_)
  refine MTriple.bind trip_mget (fun w1 => ?_)
  refine MTriple.bind
    (MTriple.conseq (mark_mcq_loop_inv _ "marking" excInv_marking _ 0 hp1)
      (fun w hw => hw.1) (fun a w h => h) (fun w h => h)) (fun pc => ?_)
  refine MTriple.pull _ (fun hprg => ?_)
  refine MTriple.bind (trip_mcq_summary excInv_marking _ _ _ _ hprg) (fun p2 => ?_)
  refine MTriple.pull _ (fun hp2 => ?_)
  refine MTriple.bind (trip_mstep w1.faults.serviceInit excInv_marking) (fun _ => ?_)
  refine MTriple.bind trip_mget (fun w2 => ?_)
  refine MTriple.bind
    (MTriple.conseq (mark_written_loop_inv _ "marking" excInv_marking _ _ _ _ hp2)
      (fun w hw => hw.1) (fun a w h => h) (fun w h => h)) (fun p3 => ?_)
  refine MTriple.pull _ (fun hp3 => ?_)
  refine MTriple.bind (trip_madd _ (Eq.refl "calculating") "info" _) (fun p4 => ?_)
  refine MTriple.pull _ (fun hp4 => ?_)
  refine MTriple.bind trip_mget (fun w3 => ?_)
  refine MTriple.bind
    (MTriple.conseq
      (trip_save_change _ _ (by exact hp4) (by decide) (by decide) excInv_marking)
      (fun w hw => hw.1) (fun a w h => h) (fun w h => h)) (fun _ => ?_)
  refine MTriple.bind trip_mnow (fun t2 => ?_)
  refine MTriple.bind (trip_mstep w3.faults.scoreSave excInv_calculating) (fun _ => ?_)
  refine MTriple.bind trip_mget (fun w4 => ?_)
  cases hcs : calc_score_core w4.answers with
  | none =>
    refine MTriple.bind
      (MTriple.conseq (MTriple.pure () (fun w hw => hw))
        (fun w hw => hw.1) (fun a w h => h) (fun w h => h)) (fun _ => trip_finish _)
  | some v =>
    refine MTriple.bind
      (MTriple.conseq (trip_mmod_inv _ (fun w => ⟨rfl, rfl⟩))
        (fun w hw => hw.1) (fun a w h => h) (fun w h => h)) (fun _ => trip_finish _)

theorem MTriple.never {α : Type} {m : MW α} {Q : α → World → Prop}
    {E : World → Prop} : MTriple (fun _ => False) m Q E := fun _ hw => hw.elim

theorem MTriple.liftE {α : Type} {P : World → Prop} {Q : α → World → Prop}
    {E : World → Prop} {m : MW α} (h : MTriple P m Q (fun _ => False)) :
    MTriple P m Q E :=
  MTriple.conseq h (fun w hw => hw) (fun a w hq => hq) (fun w hf => hf.elim)

theorem ktrip_step {P : World → Prop} (b : Bool) (hb : b = false) :
    MTriple P (mstep b) (fun _ => P) (fun _ => False) := by
  intro w hw
  subst hb
  refine ⟨fun a w2 hok => ?_, fun w2 herr => ?_⟩
  · simp only [mstep, Bool.false_eq_true, if_false, Except.ok.injEq,
      Prod.mk.injEq] at hok
    rw [← hok.2]
    exact hw
  · simp only [mstep, Bool.false_eq_true, if_false] at herr
    cases herr

theorem ktrip_raise {P : World → Prop} {Q : Unit → World → Prop} (b : Bool)
    (hb : b = true) : MTriple P (mstep b) Q P := by
  intro w hw
  subst hb
  refine ⟨fun a w2 hok => ?_, fun w2 herr => ?_⟩
  · simp only [mstep, if_true] at hok
    cases hok
  · simp only [mstep, if_true, Except.error.injEq] at herr
    rw [← herr]
    exact hw

theorem keeps_mget {A : Attempt} {F : Faults} :
    MTriple (KeepsAF A F) mget
      (fun a w => (a.attempt = A ∧ a.faults = F) ∧ KeepsAF A F w)
      (fun _ => False) := by
  intro w hw
  refine ⟨fun a w2 hok => ?_, fun w2 herr => by cases herr⟩
  cases hok
  exact ⟨⟨hw.1, hw.2⟩, hw⟩

theorem keeps_mnow {A : Attempt} {F : Faults} :
    MTriple (KeepsAF A F) mnow (fun _ => KeepsAF A F) (fun _ => False) := by
  intro w hw
  refine ⟨fun a w2 hok => ?_, fun w2 herr => by cases herr⟩
  cases hok
  exact hw

theorem keeps_madd {A : Attempt} {F : Faults} (p : MarkingProgress)
    (kind text : String) :
    MTriple (KeepsAF A F) (madd_message p kind text)
      (fun p2 w => (p2.status = p.status ∧ p2.error_message = p.error_message) ∧
        KeepsAF A F w)
      (fun _ => False) := by
  intro w hw
  refine ⟨fun a w2 hok => ?_, fun w2 herr => by cases herr⟩
  cases hok
  exact ⟨⟨rfl, rfl⟩, hw⟩

theorem keeps_mcommit {A : Attempt} {F : Faults} (p : MarkingProgress) :
    MTriple (KeepsAF A F) (mcommit_progress p)
      (fun _ w => KeepsAF A F w ∧ w.progress = p) (fun _ => False) := by
  intro w hw
  refine ⟨fun a w2 hok => ?_, fun w2 herr => by cases herr⟩
  cases hok
  exact ⟨hw, rfl⟩

theorem keeps_msave {A : Attempt} {F : Faults} (b : Bool) (hb : b = false)
    (p : MarkingProgress) :
    MTriple (KeepsAF A F) (msave_progress b p)
      (fun _ w => KeepsAF A F w ∧ w.progress = p) (fun _ => False) := by
  unfold msave_progress
  exact MTriple.bind (ktrip_step b hb) (fun _ => keeps_mcommit p)

theorem keeps_mmod {A : Attempt} {F : Faults} (f : World → World)
    (hf : ∀ w, (f w).attempt = w.attempt ∧ (f w).faults = w.faults) :
    MTriple (KeepsAF A F) (mmod f) (fun _ => KeepsAF A F) (fun _ => False) := by
  intro w hw
  refine ⟨fun a w2 hok => ?_, fun w2 herr => by cases herr⟩
  cases hok
  exact ⟨(hf w).1.trans hw.1, (hf w).2.trans hw.2⟩

theorem keeps_mcq_loop {A : Attempt} {F : Faults}
    (hm : ∀ i, F.mcqMark i = false) (l : List Nat) :
    ∀ (p : MarkingProgress) (c : Nat),
    MTriple (KeepsAF A F) (mark_mcq_loop l p c)
      (fun _ => KeepsAF A F) (fun _ => False) := by
  induction l with
  | nil =>
    intro p c
    simp only [mark_mcq_loop]
    exact MTriple.pure _ (fun w hw => hw)
  | cons i rest ih =>
    intro p c
    simp only [mark_mcq_loop]
    refine MTriple.bind keeps_mget (fun wv => ?_)
    refine MTriple.pull _ (fun hv => ?_)
    refine MTriple.bind (ktrip_step _ (by rw [hv.2]; exact hm i)) (fun _ => ?_)
    refine MTriple.bind (keeps_mmod _ (fun w => ⟨rfl, rfl⟩)) (fun _ => ?_)
    exact ih _ _

theorem keeps_summary {A : Attempt} {F : Faults} (fl : Bool) (hfl : fl = false)
    (l : List Nat) (c : Nat) (p : MarkingProgress) :
    MTriple (KeepsAF A F) (mcq_summary_step fl l c p)
      (fun _ => KeepsAF A F) (fun _ => False) := by
  unfold mcq_summary_step
  refine MTriple.split_ite _ (fun h1 => MTriple.pure _ (fun w hw => hw)) (fun h1 => ?_)
  refine MTriple.bind (keeps_madd _ _ _) (fun p2 => ?_)
  refine MTriple.bind
    (MTriple.conseq (keeps_msave fl hfl p2)
      (fun w hw => hw.2) (fun a w hw => hw.1) (fun w h => h)) (fun _ => ?_)
  exact MTriple.pure _ (fun w hw => hw)

theorem keeps_main_raises {A : Attempt} {F : Faults}
    (h1 : F.fetch = false) (h2 : F.beginSave = false)
    (h3 : ∀ i, F.mcqMark i = false) (h4 : F.mcqSummarySave = false)
    (h5 : F.serviceInit = true) :
    MTriple (KeepsAF A F) marking_main (fun _ _ => False) (KeepsAF A F) := by
  unfold marking_main
  refine MTriple.bind (MTriple.liftE keeps_mget) (fun w0 => ?_)
  refine MTriple.pull _ (fun hv0 => ?_)
  refine MTriple.bind (MTriple.liftE (ktrip_step _ (by rw [hv0.2]; exact h1)))
    (fun _ => ?_)
  refine MTriple.bind (MTriple.liftE keeps_mnow) (fun t => ?_)
  refine MTriple.bind (MTriple.liftE (keeps_madd _ _ _)) (fun p1 => ?_)
  refine MTriple.bind
    (MTriple.liftE (MTriple.conseq (keeps_msave _ (by rw [hv0.2]; exact h2) p1)
      (fun w hw => hw.2) (fun a w hw => hw.1) (fun w h => h))) (fun _ => ?_)
  refine MTriple.bind (MTriple.liftE keeps_mget) (fun w1 => ?_)
  refine MTriple.pull _ (fun hv1 => ?_)
  refine MTriple.bind (MTriple.liftE (keeps_mcq_loop h3 _ _ _)) (fun pc => ?_)
  refine MTriple.bind
    (MTriple.liftE (keeps_summary _ (by rw [hv1.2]; exact h4) _ _ _)) (fun p2 => ?_)
  exact MTriple.bind (ktrip_raise _ (by rw [hv1.2]; exact h5)) (fun _ => MTriple.never)

theorem keeps_handler_triple {A : Attempt} {F : Faults}
    (hh1 : F.handlerFetch = false) (hh2 : F.handlerSave = false)
    (hh3 : F.handlerNotif = false) :
    MTriple (KeepsAF A F) marking_handler
      (fun _ w => w.attempt = A ∧ w.progress.status = "failed" ∧
        w.progress.error_message =
          "An unexpected error occurred during marking. Please try again." ∧
        ∃ n, n ∈ w.notifications ∧ n.ntype = "marking_failed")
      (fun _ => False) := by
  unfold marking_handler
  refine MTriple.bind keeps_mget (fun wv => ?_)
  refine MTriple.pull _ (fun hv => ?_)
  refine MTriple.bind (ktrip_step _ (by rw [hv.2]; exact hh1)) (fun _ => ?_)
  refine MTriple.bind keeps_mget (fun w1 => ?_)
  refine MTriple.pull _ (fun hv1 => ?_)
  refine MTriple.bind (keeps_madd _ _ _) (fun p2 => ?_)
  refine MTriple.pull _ (fun hp2 => ?_)
  refine MTriple.bind keeps_mnow (fun t => ?_)
  refine MTriple.bind (keeps_msave _ (by rw [hv.2]; exact hh2) _) (fun _ => ?_)
  refine MTriple.bind
    (MTriple.conseq (ktrip_step _ (by rw [hv.2]; exact hh3))
      (fun w hw => hw) (fun a w hw => hw) (fun w h => h)) (fun _ => ?_)
  intro w hw
  refine ⟨fun a w2 hok => ?_, fun w2 herr => by cases herr⟩
  cases hok
  refine ⟨hw.1.1, ?_, ?_, ?_⟩
  · rw [hw.2]
    exact hp2.1
  · rw [hw.2]
    exact hp2.2
  · exact ⟨_, List.mem_append_right _ (List.mem_singleton_self _), rfl⟩

theorem run_marking_serviceInit_fails (w : World)
    (hf : w.faults = serviceInitFault) :
    (run_marking w).progress.status = "failed" ∧
    (run_marking w).progress.error_message ≠ "" ∧
    (∃ n ∈ (run_marking w).notifications, n.ntype = "marking_failed") ∧
    (run_marking w).attempt = w.attempt := by
  have hK : KeepsAF w.attempt w.faults { w with trace := [w.progress.status] } :=
    ⟨rfl, rfl⟩
  obtain ⟨hok, herr⟩ :=
    keeps_main_raises (by rw [hf]; rfl) (by rw [hf]; rfl)
      (fun i => by rw [hf]; rfl) (by rw [hf]; rfl) (by rw [hf]; rfl) _ hK
  cases hm : marking_main { w with trace := [w.progress.status] } with
  | ok p => exact (hok p.1 p.2 (by rw [hm])).elim
  | error w2 =>
    obtain ⟨hok2, herr2⟩ :=
      keeps_handler_triple (by rw [hf]; rfl) (by rw [hf]; rfl) (by rw [hf]; rfl)
        w2 (herr w2 hm)
    cases hh : marking_handler w2 with
    | error w3 => exact (herr2 w3 hh).elim
    | ok p3 =>
      obtain ⟨a3, w3⟩ := p3
      have hq := hok2 a3 w3 hh
      have hr : run_marking w = w3 := by simp only [run_marking, hm, hh]
      rw [hr]
      exact ⟨hq.2.1, by rw [hq.2.2.1]; decide, hq.2.2.2, hq.1⟩

theorem streak_max (b : Bool) (u : User) :
    (streak_update b u).longest_streak_days =
      max u.longest_streak_days (streak_update b u).current_streak_days := rfl

theorem streak_le (b : Bool) (u : User) :
    (streak_update b u).current_streak_days ≤
      (streak_update b u).longest_streak_days :=
  le_max_right _ _

theorem utrip_mget {U : User} :
    MTriple (KeepsU U) mget (fun a w => a.user = U ∧ KeepsU U w)
      (fun _ => True) := by
  intro w hw
  refine ⟨fun a w2 hok => ?_, fun w2 herr => trivial⟩
  cases hok
  exact ⟨hw, hw⟩

theorem utrip_mstep {U : User} (b : Bool) :
    MTriple (KeepsU U) (mstep b) (fun _ => KeepsU U) (fun _ => True) :=
  trip_mstep b (fun _ _ => trivial)

theorem utrip_mnow {U : User} :
    MTriple (KeepsU U) mnow (fun _ => KeepsU U) (fun _ => True) := by
  intro w hw
  refine ⟨fun a w2 hok => ?_, fun w2 herr => trivial⟩
  cases hok
  exact hw

theorem utrip_mmod {U : User} (f : World → World)
    (hf : ∀ w, (f w).user = w.user) :
    MTriple (KeepsU U) (mmod f) (fun _ => KeepsU U) (fun _ => True) := by
  intro w hw
  refine ⟨fun a w2 hok => ?_, fun w2 herr => trivial⟩
  cases hok
  exact (hf w).trans hw

theorem utrip_topic_loop {U : User} (l : List (Nat × TStats)) :
    MTriple (KeepsU U) (sync_topic_loop l) (fun _ => KeepsU U)
      (fun _ => True) := by
  induction l with
  | nil =>
    simp only [sync_topic_loop]
    exact MTriple.pure _ (fun w hw => hw)
  | cons x rest ih =>
    obtain ⟨tid, st⟩ := x
    simp only [sync_topic_loop]
    refine MTriple.bind utrip_mget (fun wv => ?_)
    refine MTriple.pull _ (fun hv => ?_)
    refine MTriple.bind (utrip_mstep _) (fun _ => ?_)
    refine MTriple.bind utrip_mnow (fun t => ?_)
    refine MTriple.bind (utrip_mmod _ (fun w => ?_)) (fun _ => ?_)
    · cases w.topics.find? (fun p => p.topic_id == tid) <;> rfl
    · exact ih

theorem sync_user_streak (att : Attempt) {U : User} :
    MTriple (KeepsU U) (sync_progress_tables att)
      (fun _ w => w.user.longest_streak_days =
          max U.longest_streak_days w.user.current_streak_days ∧
        w.user.current_streak_days ≤ w.user.longest_streak_days)
      (fun _ => True) := by
  unfold sync_progress_tables
  refine MTriple.bind utrip_mget (fun w0 => ?_)
  refine MTriple.pull _ (fun hw0 => ?_)
  refine MTriple.bind (utrip_mstep _) (fun _ => ?_)
  refine MTriple.bind utrip_mget (fun w1 => ?_)
  refine MTriple.pull _ (fun hw1 => ?_)
  refine MTriple.bind (utrip_topic_loop _) (fun _ => ?_)
  refine MTriple.bind utrip_mget (fun w2 => ?_)
  refine MTriple.pull _ (fun hw2 => ?_)
  refine MTriple.bind (utrip_mstep _) (fun _ => ?_)
  refine MTriple.bind (utrip_mmod _ (fun w => ?_)) (fun _ => ?_)
  · cases w.sessions.find? (fun s => s.date == w.today) <;> rfl
  refine MTriple.bind utrip_mget (fun w4 => ?_)
  refine MTriple.pull _ (fun hw4 => ?_)
  refine MTriple.bind (utrip_mstep _) (fun _ => ?_)
  refine MTriple.bind utrip_mget (fun w5 => ?_)
  refine MTriple.pull _ (fun hw5 => ?_)
  refine MTriple.bind (utrip_mstep _) (fun _ => ?_)
  refine MTriple.bind (utrip_mmod _ (fun w => rfl)) (fun _ => ?_)
  refine MTriple.bind utrip_mnow (fun t => ?_)
  refine MTriple.bind (utrip_mstep _) (fun _ => ?_)
  intro w hw
  refine ⟨fun a w2 hok => ?_, fun w2 herr => trivial⟩
  cases hok
  subst hw5
  exact ⟨streak_max _ _, streak_le _ _⟩

theorem trip_handler_exc :
    MTriple ExcInv marking_handler
      (fun _ w => chainBy stepOKA w.trace = true)
      (fun w => chainBy stepOKA w.trace = true) := by
  intro w hw
  exact trip_handler w.progress.status hw.2.2 w ⟨rfl, hw.1, hw.2.1⟩

/-- C4 (amended): in every execution of the marking workflow started on a
`pending` progress row — whichever steps raise — the ghost trace of persisted
statuses follows `pending → marking → calculating → completed` with an
optional jump to `failed` from any state other than `failed` itself,
*including* from `completed`; no transition ever leaves `failed`. -/
theorem c4_status_transitions (w : World) (h : w.progress.status = "pending") :
    chainBy stepOKA (run_marking w).trace = true := by
  have hInv : TraceInv "pending" { w with trace := [w.progress.status] } :=
    ⟨h, by simp [h], by simp [h, chainBy]⟩
  obtain ⟨hokM, herrM⟩ := trip_marking_main _ hInv
  cases hm : marking_main { w with trace := [w.progress.status] } with
  | ok p =>
    have hq := hokM p.1 p.2 (by rw [hm])
    have hr : run_marking w = p.2 := by simp only [run_marking, hm]
    rw [hr]
    exact hq
  | error w2 =>
    obtain ⟨hokH, herrH⟩ := trip_handler_exc w2 (herrM w2 hm)
    cases hh : marking_handler w2 with
    | ok p3 =>
      have hq := hokH p3.1 p3.2 (by rw [hh])
      have hr : run_marking w = p3.2 := by simp only [run_marking, hm, hh]
      rw [hr]
      exact hq
    | error w3 =>
      have hq := herrH w3 hh
      have hr : run_marking w = w3 := by simp only [run_marking, hm, hh]
      rw [hr]
      exact hq

/-- C5: if the AI-service construction raises — after the MCQ pass, before
any written answer is marked — the workflow ends with the progress row
`failed` carrying a non-empty error message, a `marking_failed` notification
for the user, and the attempt still `submitted` with no total score or
percentage. -/
theorem c5_midworkflow_failure (w : World)
    (hf : w.faults = serviceInitFault)
    (hs : w.attempt.status = "submitted")
    (ht : w.attempt.total_score = none)
    (hp : w.attempt.percentage = none) :
    (run_marking w).progress.status = "failed" ∧
    (run_marking w).progress.error_message ≠ "" ∧
    (∃ n ∈ (run_marking w).notifications, n.ntype = "marking_failed") ∧
    (run_marking w).attempt.status = "submitted" ∧
    (run_marking w).attempt.total_score = none ∧
    (run_marking w).attempt.percentage = none := by
  obtain ⟨h1, h2, h3, h4⟩ := run_marking_serviceInit_fails w hf
  exact ⟨h1, h2, h3, by rw [h4]; exact hs, by rw [h4]; exact ht,
    by rw [h4]; exact hp⟩

/-- Closed instance of the C5 theorem on the concrete scenario-D world. -/
theorem c5_midworkflow_failure_witness :
    (run_marking worldC5).progress.status = "failed" ∧
    (run_marking worldC5).progress.error_message ≠ "" ∧
    (∃ n ∈ (run_marking worldC5).notifications, n.ntype = "marking_failed") ∧
    (run_marking worldC5).attempt.status = "submitted" ∧
    (run_marking worldC5).attempt.total_score = none ∧
    (run_marking worldC5).attempt.percentage = none :=
  c5_midworkflow_failure worldC5 rfl rfl rfl rfl

/-- Closed instance of the C4 theorem on the fault-free zero-answer world. -/
theorem c4_status_transitions_witness :
    chainBy stepOKA (run_marking world0).trace = true :=
  c4_status_transitions world0 rfl

/-- C4 (counterexample): when the completion-notification insert raises, the
workflow first persists `completed` and the recovery handler then persists
`failed`, so the run takes the transition `completed → failed` — refuting the
claim that no transition out of `completed` is ever taken. -/
theorem c4_completed_to_failed_reachable :
    (run_marking worldC4).trace =
      ["pending", "marking", "calculating", "completed", "failed"] ∧
    chainBy stepOKC (run_marking worldC4).trace = false := by
  have h : (run_marking worldC4).trace =
      ["pending", "marking", "calculating", "completed", "failed"] := by
    simp [run_marking, marking_main, MW_bind_def, MW_pure_def, mstep, mget, mmod, mnow,
      mcoin, mchoice, madd_message, mcommit_progress, msave_progress, mark_mcq_loop,
      mark_written_loop, sync_progress_tables, sync_topic_loop, compute_topic_stats,
      create_notification, maybe_send_email, finish_marking, mcq_summary_step,
      fun_message_step, flavor_step, milestone_step, email_send_body, marking_handler,
      noFaults, worldC4, world0, prog0, att0, user0, calc_score_core, calculate_score,
      streak_update]
  exact ⟨h, by rw [h]; decide⟩

/-- C10: any completed progress-table sync stores the
`longest_streak_days` of the user as the maximum of its pre-sync value and the newly
computed `current_streak_days`; in particular `current ≤ longest` holds
after every sync run. -/
theorem c10_streak_invariant (att : Attempt) (w w2 : World) (a : Unit)
    (h : sync_progress_tables att w = Except.ok (a, w2)) :
    w2.user.longest_streak_days =
      max w.user.longest_streak_days w2.user.current_streak_days ∧
    w2.user.current_streak_days ≤ w2.user.longest_streak_days :=
  (sync_user_streak att w rfl).1 a w2 h

/-- Closed instance of the C10 theorem on one concrete sync run. -/
theorem c10_streak_invariant_witness :
    wSync0.user.longest_streak_days =
      max c10w.user.longest_streak_days wSync0.user.current_streak_days ∧
    wSync0.user.current_streak_days ≤ wSync0.user.longest_streak_days := by
  have h0 : sync_progress_tables att0 c10w = Except.ok ((), wSync0) := by
    simp [wSync0, sync_progress_tables, sync_topic_loop, compute_topic_stats,
      topic_stats_add, MW_bind_def, MW_pure_def, mstep, mget, mmod, mnow,
      madd_message, mcommit_progress, msave_progress, noFaults, c10w, world0,
      prog0, att0, user0, streak_update]
  exact c10_streak_invariant att0 c10w wSync0 () h0

/-- C1 (code bug): `AttemptSubmitView.post` on an `in_progress` attempt with
one written answer returns HTTP 200 only after grading has already run in the
request path: at the moment the response is produced the attempt is `marked`
(not `submitted`), its answers carry fallback scores, and only the persisted
`time_spent_seconds` matches the claim. -/
theorem c1_submit_is_synchronous :
    (attempt_submit_post 5 (fun _ => AIOutcome.unavailable) (some 120) attIP
      [aw1]).response_status = 200 ∧
    (attempt_submit_post 5 (fun _ => AIOutcome.unavailable) (some 120) attIP
      [aw1]).attempt.status = "marked" ∧
    ¬((attempt_submit_post 5 (fun _ => AIOutcome.unavailable) (some 120) attIP
      [aw1]).attempt.status = "submitted") ∧
    (attempt_submit_post 5 (fun _ => AIOutcome.unavailable) (some 120) attIP
      [aw1]).answers.map (fun a => a.score) = [some ((5 : ℚ)/2)] ∧
    (attempt_submit_post 5 (fun _ => AIOutcome.unavailable) (some 120) attIP
      [aw1]).attempt.time_spent_seconds = 120 := by
  with_unfolding_all decide

end Examo
